import Mathlib

/-!
Shallow embedding of `circularbuffer.c`.

The C extension type `CircularBuffer` (file `circularbuffer.c`) is embedded as
pure state-passing functions.  Conventions of the embedding:

* the character storage `buf` is a map from byte offsets (relative to the
  pointer returned by `malloc(size << 1)`) to bytes, and `alloc` is the extent
  of that block, the `unsigned int` value `size << 1`; `rpos` and `wpos` are
  kept as offsets `rpos - buf` and `wpos - buf`;
* `Py_ssize_t` and `long` are 64 bit and are embedded as `Int`; `unsigned int`
  is 32 bit and every conversion to it is the explicit `toUInt` (reduction
  modulo `2 ^ 32`);
* whether plain `char` is signed is fixed by the platform ABI, it is the
  parameter `charSigned` of the header decoder;
* a function returning `PyObject *` returns a `PyObject` value, `NULL`
  carrying the message of the `ValueError` that was set; an object handed back
  while the exception of a failed `PyLong_AsLong` is still set is `ErrorSet`;
* the code checks no access against the extent of the allocation, and neither does
  the embedding: a copy of `n` bytes at offset `p` reads or writes the offsets
  `p, ..., p + n - 1` of the map.
-/

namespace CircBuf

/-- One byte of storage. -/
abbrev Byte := Fin 256

/-- Return empty string (`#define EMPTY_EMPTY 0`). -/
def EMPTY_EMPTY : Nat := 0
/-- Block read function and wait for data (`#define EMPTY_WAIT 1`). -/
def EMPTY_WAIT : Nat := 1
/-- Return NULL and throw exception (`#define EMPTY_EXC 2`). -/
def EMPTY_EXC : Nat := 2

/-- Return 0 if buffer full, -1 if data is bigger than buffer size (`#define FULL_ZERO 0`). -/
def FULL_ZERO : Nat := 0
/-- Block write function until buffer has enough space (`#define FULL_WAIT 1`). -/
def FULL_WAIT : Nat := 1
/-- Throw exception (`#define FULL_EXC 2`). -/
def FULL_EXC : Nat := 2

/-- The exceptions the code leaves set: the messages passed to
`PyErr_SetString(PyExc_ValueError, ...)`, and the `OverflowError` of `PyLong_AsLong`. -/
inductive Error where
  /-- message "Buffer size too small" -/
  | bufferSizeTooSmall
  /-- message "Failed to allocate buffer" -/
  | failedToAllocate
  /-- the `OverflowError` "Python int too large to convert to C long" that
  `PyLong_AsLong` sets -/
  | intTooLarge
  /-- message "Buffer is empty" -/
  | bufferIsEmpty
  /-- message "TODO: Implement blocking reader" -/
  | todoBlockingReader
  /-- message "Buffer too small" -/
  | bufferTooSmall
  /-- message "Data size too big" -/
  | dataSizeTooBig
  /-- message "TODO: Implement blocking writer" -/
  | todoBlockingWriter
  /-- message "Not enough free space" -/
  | notEnoughFreeSpace
  /-- message "Buffer is too small for message" -/
  | bufferTooSmallForMessage
  deriving DecidableEq, Repr

/-- The values a method of the type hands back to the interpreter. -/
inductive PyObject where
  /-- the `NULL` pointer, with the exception message that was set -/
  | NULL (e : Error)
  /-- the object `Py_None` -/
  | None
  /-- the buffer object itself, `(PyObject *)obj` -/
  | Self
  /-- a `bytes` object, `PyBytes_FromStringAndSize` -/
  | Bytes (b : List Byte)
  /-- an `int` object, `PyLong_FromLong` -/
  | Long (n : Int)
  /-- the object `Py_True` -/
  | True
  /-- the object `Py_False` -/
  | False
  /-- the object `r`, handed back while the exception `e` is set: the interpreter
  discards `r` and the call raises -/
  | ErrorSet (e : Error) (r : PyObject)
  deriving DecidableEq, Repr

/-- The fields of `struct CircularBuffer`. -/
structure CircularBuffer where
  /-- contents of the storage, by offset from `buf` -/
  buf : Nat → Byte
  /-- field `Py_ssize_t size` -/
  size : Nat
  /-- field `Py_ssize_t cnt` -/
  cnt : Int
  /-- field `char *rpos`, as the offset `rpos - buf` -/
  rpos : Nat
  /-- field `char *wpos`, as the offset `wpos - buf` -/
  wpos : Nat
  /-- field `Py_ssize_t msgcnt` -/
  msgcnt : Int
  /-- field `unsigned char msgsize_bytes` -/
  msgsize_bytes : Nat
  /-- field `unsigned char empty` -/
  empty : Nat
  /-- field `unsigned char full` -/
  full : Nat
  /-- extent in bytes of the block `buf` points to, the argument `malloc` was given -/
  alloc : Nat

/-- Conversion of an integer value to `unsigned int`. -/
def toUInt (x : Int) : Nat := (x % 4294967296).toNat

/-- Conversion of an `unsigned int` value to `char` for a store. -/
def toByte (n : Nat) : Byte := ⟨n % 256, Nat.mod_lt _ (by decide)⟩

/-- The `int` a `char` lvalue is promoted to when it is read. -/
def charVal (charSigned : Bool) (b : Byte) : Int :=
  if charSigned && decide (128 ≤ b.val) then (b.val : Int) - 256 else (b.val : Int)

/-- The bytes `memcpy(dst, p, n)` or `PyBytes_FromStringAndSize(p, n)` read: `n` bytes
from offset `pos` on. -/
def readBytes (buf : Nat → Byte) (pos n : Nat) : List Byte :=
  (List.range n).map (fun i => buf (pos + i))

/-- The storage after `memcpy(buf + pos, data, len(data))`. -/
def writeBytes (buf : Nat → Byte) (pos : Nat) (data : List Byte) : Nat → Byte :=
  fun i => if i < pos then buf i else (data.get? (i - pos)).getD (buf i)

/-- The storage after the single store `*(buf + pos) = b`. -/
def writeByte (buf : Nat → Byte) (pos : Nat) (b : Byte) : Nat → Byte :=
  fun i => if i = pos then b else buf i

/-- The reset `if (p >= obj->buf + obj->size) p = obj->buf;` on an offset. -/
def wrap (size p : Nat) : Nat := if size ≤ p then 0 else p

/-- The choice of `msgsize_bytes` in `CircularBuffer_init`. -/
def headerWidth (size : Nat) : Nat :=
  if size ≤ 256 then 1
  else if size ≤ 65536 then 2
  else if size ≤ 256 * 65536 then 3
  else 4

/-- Embeds `CircularBuffer_init` on a newly allocated object: `size`, `empty` and `full` are
the parsed arguments (formats `I`, `B`, `B`: reduced to `unsigned int` and
`unsigned char`).  `mem` is what `malloc(size << 1)` returns: `none` for `NULL`, else the
indeterminate content of the block; the requested extent `size << 1` is an
`unsigned int` product.  `msgcnt` is not assigned by the function, it is the zero
`tp_alloc` put there. -/
def CircularBuffer_init (mem : Option (Nat → Byte)) (size empty full : Nat) :
    Except Error CircularBuffer :=
  let size := size % 4294967296
  let empty := empty % 256
  let full := full % 256
  if size < 16 then .error .bufferSizeTooSmall
  else
    match mem with
    | none => .error .failedToAllocate
    | some buf =>
      .ok
        { buf := buf, alloc := (size <<< 1) % 4294967296, size := size, cnt := 0, wpos := 0,
          rpos := 0, msgcnt := 0, empty := empty, full := full,
          msgsize_bytes := headerWidth size }

/-- Embeds `CircularBuffer_clear`. -/
def CircularBuffer_clear (obj : CircularBuffer) : PyObject × CircularBuffer :=
  (.None, { obj with rpos := 0, wpos := 0, cnt := 0, msgcnt := 0 })

/-- Embeds `get_rbuffer`. -/
def get_rbuffer (obj : CircularBuffer) : PyObject :=
  if obj.cnt = 0 then
    if obj.empty = EMPTY_EXC then .NULL .bufferIsEmpty
    else if obj.empty = EMPTY_WAIT then .NULL .todoBlockingReader
    else .None
  else .Self

/-- Embeds the call `PyLong_AsLong(py_cnt)` on an `int` object of value `n`: the `long` it
returns, and whether it failed.  On a value outside `long` it fails: it sets
`OverflowError` and returns -1. -/
def PyLong_AsLong (n : Int) : Int × Bool :=
  if -9223372036854775808 ≤ n ∧ n < 9223372036854775808 then (n, false) else (-1, true)

/-- What the interpreter receives from a function that returns the object `r` without
having tested whether its `PyLong_AsLong` call failed: `r` itself, or `r` with the
`OverflowError` still set. -/
def handBack : Bool → PyObject → PyObject
  | false, r => r
  | true, r => .ErrorSet .intTooLarge r

/-- Embeds `peek`: the result, and the value stored through the `cnt` pointer when the
store is reached.  The result of `PyLong_AsLong` is assigned to an `unsigned int`
without a test for failure. -/
def peek (obj : CircularBuffer) (py_cnt : Int) : PyObject × Option Nat :=
  match get_rbuffer obj with
  | .NULL e => (.NULL e, none)
  | .None => (.None, none)
  | _ =>
    let tmp_cnt := toUInt (PyLong_AsLong py_cnt).1
    let tmp_cnt := if (tmp_cnt : Int) > obj.cnt then toUInt obj.cnt else tmp_cnt
    (handBack (PyLong_AsLong py_cnt).2 (.Bytes (readBytes obj.buf obj.rpos tmp_cnt)),
     some tmp_cnt)

/-- Embeds `CircularBuffer_peek`. -/
def CircularBuffer_peek (obj : CircularBuffer) (py_cnt : Int) : PyObject × CircularBuffer :=
  ((peek obj py_cnt).1, obj)

/-- Embeds `CircularBuffer_drop`.  The result of `PyLong_AsLong` is assigned to an
`unsigned int` without a test for failure. -/
def CircularBuffer_drop (obj : CircularBuffer) (py_cnt : Int) : PyObject × CircularBuffer :=
  let cnt := toUInt (PyLong_AsLong py_cnt).1
  let cnt := if (cnt : Int) > obj.cnt then toUInt obj.cnt else cnt
  (handBack (PyLong_AsLong py_cnt).2 (.Long cnt),
   { obj with rpos := wrap obj.size (obj.rpos + cnt), cnt := obj.cnt - cnt })

/-- Embeds `CircularBuffer_read`.  The local `cnt` is declared without initialiser and is
assigned only when `peek` reaches its store; `junk` is the indeterminate value it
holds otherwise. -/
def CircularBuffer_read (obj : CircularBuffer) (py_cnt : Int) (junk : Nat) :
    PyObject × CircularBuffer :=
  match peek obj py_cnt with
  | (.NULL e, _) => (.NULL e, obj)
  | (result, c) =>
    let cnt := c.getD (junk % 4294967296)
    (result, { obj with rpos := wrap obj.size (obj.rpos + cnt), cnt := obj.cnt - cnt })

/-- Embeds `CircularBuffer_read_into`: `dst` is the content of the caller's buffer
(`buf.len = dst.length`), `n` the optional count (0 when absent).  The third
component is the caller's buffer afterwards. -/
def CircularBuffer_read_into (obj : CircularBuffer) (dst : List Byte) (n : Nat) :
    PyObject × CircularBuffer × List Byte :=
  let cnt := n % 4294967296
  if (cnt : Int) > dst.length then (.NULL .bufferTooSmall, obj, dst)
  else
    let cnt := if cnt = 0 then toUInt obj.cnt else cnt
    let cnt := if (cnt : Int) > dst.length then toUInt dst.length else cnt
    (.True,
     { obj with rpos := wrap obj.size (obj.rpos + cnt), cnt := obj.cnt - cnt },
     readBytes obj.buf obj.rpos cnt ++ dst.drop cnt)

/-- Embeds `CircularBuffer_write`. -/
def CircularBuffer_write (obj : CircularBuffer) (data : List Byte) : PyObject × CircularBuffer :=
  let len : Int := data.length
  if len > (obj.size : Int) - obj.cnt then
    if obj.full = FULL_ZERO then
      if len > obj.size then (.Long (-1), obj) else (.Long 0, obj)
    else if obj.full = FULL_WAIT then
      if len > obj.size then (.NULL .dataSizeTooBig, obj) else (.NULL .todoBlockingWriter, obj)
    else (.NULL .notEnoughFreeSpace, obj)
  else
    (.Long len,
     { obj with
       buf := writeBytes obj.buf obj.wpos data
       wpos := wrap obj.size (obj.wpos + data.length)
       cnt := obj.cnt + len })

/-- Embeds `get_msgsize`: the decoded and clamped message size, and the object with
`rpos` and `cnt` moved past the header.  The reads `*obj->rpos` promote a `char`. -/
def get_msgsize (charSigned : Bool) (obj : CircularBuffer) : Nat × CircularBuffer :=
  let msgsize_bytes := obj.msgsize_bytes
  if obj.cnt < (msgsize_bytes : Int) then (0, obj)
  else
    let endpos := obj.size
    let msgsize := toUInt (charVal charSigned (obj.buf obj.rpos))
    let rpos := wrap endpos (obj.rpos + 1)
    let (msgsize, rpos) :=
      if msgsize_bytes > 1 then
        let msgsize := msgsize ||| toUInt (charVal charSigned (obj.buf rpos) * 256)
        let rpos := wrap endpos (rpos + 1)
        if msgsize_bytes > 2 then
          let msgsize := msgsize ||| toUInt (charVal charSigned (obj.buf rpos) * 65536)
          let rpos := wrap endpos (rpos + 1)
          if msgsize_bytes > 3 then
            let msgsize := msgsize ||| toUInt (charVal charSigned (obj.buf rpos) * 16777216)
            let rpos := wrap endpos (rpos + 1)
            (msgsize, rpos)
          else (msgsize, rpos)
        else (msgsize, rpos)
      else (msgsize, rpos)
    let cnt := obj.cnt - (msgsize_bytes : Int)
    let msgsize := if (msgsize : Int) > cnt then toUInt cnt else msgsize
    (msgsize, { obj with rpos := rpos, cnt := cnt })

/-- Embeds `readmsg`, the body shared by `readmsg` (`read = true`) and `peekmsg`
(`read = false`).  The saved `cnt` is an `unsigned int` local. -/
def readmsg (charSigned : Bool) (obj : CircularBuffer) (read : Bool) :
    PyObject × CircularBuffer :=
  match get_rbuffer obj with
  | .NULL e => (.NULL e, obj)
  | .None => (.None, obj)
  | _ =>
    let rpos := obj.rpos
    let cnt := toUInt obj.cnt
    let (msgsize, obj) := get_msgsize charSigned obj
    let result := PyObject.Bytes (readBytes obj.buf obj.rpos msgsize)
    if read then
      (result,
       { obj with
         rpos := wrap obj.size (obj.rpos + msgsize)
         cnt := obj.cnt - (msgsize : Int)
         msgcnt := obj.msgcnt - 1 })
    else
      (result, { obj with rpos := rpos, cnt := (cnt : Int) })

/-- Embeds `CircularBuffer_readmsg`. -/
def CircularBuffer_readmsg (charSigned : Bool) (obj : CircularBuffer) :
    PyObject × CircularBuffer :=
  readmsg charSigned obj true

/-- Embeds `CircularBuffer_peekmsg`. -/
def CircularBuffer_peekmsg (charSigned : Bool) (obj : CircularBuffer) :
    PyObject × CircularBuffer :=
  readmsg charSigned obj false

/-- Embeds `CircularBuffer_readmsg_into`: `dst` is the content of the caller's buffer, the
third component is that buffer afterwards.  The saved `cnt` is an `unsigned int` local. -/
def CircularBuffer_readmsg_into (charSigned : Bool) (obj : CircularBuffer) (dst : List Byte) :
    PyObject × CircularBuffer × List Byte :=
  let rpos := obj.rpos
  let cnt := toUInt obj.cnt
  let (msgsize, obj) := get_msgsize charSigned obj
  if (msgsize : Int) > dst.length then
    (.NULL .bufferTooSmallForMessage, { obj with rpos := rpos, cnt := (cnt : Int) }, dst)
  else
    (.True,
     { obj with
       rpos := wrap obj.size (obj.rpos + msgsize)
       cnt := obj.cnt - (msgsize : Int)
       msgcnt := obj.msgcnt - 1 },
     readBytes obj.buf obj.rpos msgsize ++ dst.drop msgsize)

/-- Embeds `CircularBuffer_dropmsg`. -/
def CircularBuffer_dropmsg (charSigned : Bool) (obj : CircularBuffer) :
    PyObject × CircularBuffer :=
  let (msgsize, obj) := get_msgsize charSigned obj
  if msgsize > 0 then
    (.True,
     { obj with
       rpos := wrap obj.size (obj.rpos + msgsize)
       cnt := obj.cnt - (msgsize : Int)
       msgcnt := obj.msgcnt - 1 })
  else (.False, obj)

/-- Embeds `CircularBuffer_writemsg`.  `buflen` is an `unsigned int` assigned from
`view.len`; the header bytes are stored one by one with a reset after each; the sum
`msgsize_bytes + buflen` added to `cnt` is an `unsigned int`. -/
def CircularBuffer_writemsg (obj : CircularBuffer) (data : List Byte) :
    PyObject × CircularBuffer :=
  let buflen := toUInt data.length
  let msgsize_bytes := obj.msgsize_bytes
  let endpos := obj.size
  if (buflen : Int) > (obj.size : Int) - obj.cnt - (msgsize_bytes : Int) then
    if obj.full = FULL_ZERO then
      if buflen > obj.size then (.Long (-1), obj) else (.Long 0, obj)
    else if obj.full = FULL_WAIT then
      if buflen > obj.size then (.NULL .dataSizeTooBig, obj)
      else (.NULL .todoBlockingWriter, obj)
    else (.NULL .notEnoughFreeSpace, obj)
  else
    let buf := writeByte obj.buf obj.wpos (toByte (buflen &&& 0xff))
    let wpos := wrap endpos (obj.wpos + 1)
    let (buf, wpos) :=
      if msgsize_bytes > 1 then
        let buf := writeByte buf wpos (toByte ((buflen >>> 8) &&& 0xff))
        let wpos := wrap endpos (wpos + 1)
        if msgsize_bytes > 2 then
          let buf := writeByte buf wpos (toByte ((buflen >>> 16) &&& 0xff))
          let wpos := wrap endpos (wpos + 1)
          if msgsize_bytes > 3 then
            let buf := writeByte buf wpos (toByte ((buflen >>> 24) &&& 0xff))
            let wpos := wrap endpos (wpos + 1)
            (buf, wpos)
          else (buf, wpos)
        else (buf, wpos)
      else (buf, wpos)
    let buf := writeBytes buf wpos (data.take buflen)
    (.Long buflen,
     { obj with
       buf := buf
       wpos := wrap endpos (wpos + buflen)
       cnt := obj.cnt + (((msgsize_bytes + buflen) % 4294967296 : Nat) : Int)
       msgcnt := obj.msgcnt + 1 })

/-- The public methods of the type (`CircularBuffer_methods`), with their arguments; the
count of `peek`, `drop` and `read` is the value of the `int` object passed. -/
inductive Op where
  /-- method `clear()` -/
  | clear
  /-- method `peek(n)` -/
  | peek (n : Int)
  /-- method `drop(n)` -/
  | drop (n : Int)
  /-- method `read(n)`; `junk` is the indeterminate value of its uninitialised local -/
  | read (n : Int) (junk : Nat)
  /-- method `read_into(dst, n)` -/
  | read_into (dst : List Byte) (n : Nat)
  /-- method `write(data)` -/
  | write (data : List Byte)
  /-- method `peekmsg()` -/
  | peekmsg
  /-- method `dropmsg()` -/
  | dropmsg
  /-- method `readmsg()` -/
  | readmsg
  /-- method `readmsg_into(dst)` -/
  | readmsg_into (dst : List Byte)
  /-- method `writemsg(data)` -/
  | writemsg (data : List Byte)

/-- One method call: the returned object and the buffer afterwards. -/
def call (charSigned : Bool) (obj : CircularBuffer) : Op → PyObject × CircularBuffer
  | .clear => CircularBuffer_clear obj
  | .peek n => CircularBuffer_peek obj n
  | .drop n => CircularBuffer_drop obj n
  | .read n junk => CircularBuffer_read obj n junk
  | .read_into dst n =>
    let r := CircularBuffer_read_into obj dst n
    (r.1, r.2.1)
  | .write data => CircularBuffer_write obj data
  | .peekmsg => CircularBuffer_peekmsg charSigned obj
  | .dropmsg => CircularBuffer_dropmsg charSigned obj
  | .readmsg => CircularBuffer_readmsg charSigned obj
  | .readmsg_into dst =>
    let r := CircularBuffer_readmsg_into charSigned obj dst
    (r.1, r.2.1)
  | .writemsg data => CircularBuffer_writemsg obj data

/-- A sequence of method calls: the buffer after the last one. -/
def run (charSigned : Bool) (obj : CircularBuffer) : List Op → CircularBuffer
  | [] => obj
  | op :: ops => run charSigned (call charSigned obj op).2 ops

/-- A sequence of method calls: the objects returned, in call order. -/
def results (charSigned : Bool) (obj : CircularBuffer) : List Op → List PyObject
  | [] => []
  | op :: ops =>
    (call charSigned obj op).1 :: results charSigned (call charSigned obj op).2 ops

/-! ## Auxiliary definitions for the proofs -/

/-- Offset of the `i`-th header byte when the header starts at offset `p`: `i` single
steps, each followed by the reset at `size`. -/
def hdrPos (size p : Nat) : Nat → Nat
  | 0 => p
  | i + 1 => wrap size (hdrPos size p i + 1)

/-- Contribution of the `i`-th header byte to the decoded size. -/
def hdrTerm (charSigned : Bool) (obj : CircularBuffer) (i : Nat) : Nat :=
  toUInt (charVal charSigned (obj.buf (hdrPos obj.size obj.rpos i)) * (256 : Int) ^ i)

/-- The value `get_msgsize` assembles from the header bytes, before clamping. -/
def hdrValue (charSigned : Bool) (obj : CircularBuffer) : Nat → Nat
  | 0 => 0
  | i + 1 => hdrValue charSigned obj i ||| hdrTerm charSigned obj i

/-- Little-endian unsigned value of the first `k` header bytes at `rpos`. -/
def leValue (obj : CircularBuffer) : Nat → Nat
  | 0 => 0
  | i + 1 => leValue obj i ||| (obj.buf (hdrPos obj.size obj.rpos i)).val * 256 ^ i

/-- The storage after the first `k` header bytes of `buflen` have been stored from offset
`wpos` on. -/
def hdrStore (size wpos buflen : Nat) (buf : Nat → Byte) : Nat → (Nat → Byte)
  | 0 => buf
  | i + 1 =>
    writeByte (hdrStore size wpos buflen buf i) (hdrPos size wpos i)
      (toByte ((buflen >>> (8 * i)) &&& 0xff))

/-- The size `get_msgsize` returns once the header is complete: the decoded value clamped
to the bytes left after the header. -/
def clampedSize (charSigned : Bool) (obj : CircularBuffer) : Nat :=
  if (hdrValue charSigned obj obj.msgsize_bytes : Int) > obj.cnt - obj.msgsize_bytes
  then toUInt (obj.cnt - obj.msgsize_bytes) else hdrValue charSigned obj obj.msgsize_bytes

/-- Storage content used for concrete runs: every byte zero. -/
def zeroMem : Nat → Byte := fun _ => 0

/-- The object `CircularBuffer(16)` right after construction, on zeroed storage. -/
def fresh16 : CircularBuffer :=
  { buf := zeroMem, alloc := 32, size := 16, cnt := 0, rpos := 0, wpos := 0, msgcnt := 0,
    msgsize_bytes := 1, empty := EMPTY_EMPTY, full := FULL_ZERO }

/-- The bytes of `b"hello"`. -/
def hello : List Byte := [104, 101, 108, 108, 111]

/-- The object `CircularBuffer(256)` right after construction, on zeroed storage. -/
def fresh256 : CircularBuffer :=
  { buf := zeroMem, alloc := 512, size := 256, cnt := 0, rpos := 0, wpos := 0, msgcnt := 0,
    msgsize_bytes := 1, empty := EMPTY_EMPTY, full := FULL_ZERO }

/-- The object `CircularBuffer(16, full=FULL_WAIT)` right after construction. -/
def fresh16Wait : CircularBuffer := { fresh16 with full := FULL_WAIT }

/-- Reference FIFO byte queue bounded by `capacity`, written from the words of the
wraparound claim: `write` appends `data` when `len(data) ≤ capacity - length` and reports
`len(data)` (a rejected write reports 0 and leaves the queue alone), `read(n)` removes and
returns the first `min(n, length)` bytes. -/
def refCall (capacity : Nat) (q : List Byte) : Op → PyObject × List Byte
  | .write data =>
    if data.length ≤ capacity - q.length then (.Long data.length, q ++ data) else (.Long 0, q)
  | .read n _ => (.Bytes (q.take (min n.toNat q.length)), q.drop (min n.toNat q.length))
  | _ => (.None, q)

/-- The objects the reference queue returns along a sequence of calls. -/
def refResults (capacity : Nat) (q : List Byte) : List Op → List PyObject
  | [] => []
  | op :: ops => (refCall capacity q op).1 :: refResults capacity (refCall capacity q op).2 ops

/-- The calls `write(15 * b"\x01")`, `read(15)`, `write(16 * b"\x02")`: the second write
starts at offset 15 and crosses the end of the storage. -/
def crossingWrites : List Op :=
  [.write (List.replicate 15 1), .read 15 0, .write (List.replicate 16 2)]

/-- The counts a C `long` holds, those `PyLong_AsLong` converts without failure. -/
def inLong (n : Int) : Bool :=
  decide (-9223372036854775808 ≤ n ∧ n < 9223372036854775808)

/-- Admission of one call to a byte-stream run: `write` always, `drop` with a count that
fits a C `long`, `read` with such a count and only on a buffer that is not empty
(`cnt != 0` at the call), no other method. -/
def streamOk (obj : CircularBuffer) : Op → Bool
  | .write _ => true
  | .drop n => inLong n
  | .read n _ => decide (obj.cnt ≠ 0) && inLong n
  | _ => false

/-- A sequence of `write`, `drop` and `read` calls in which every `read` is issued on a
buffer that is not empty and every count of `drop` and `read` fits a C `long`. -/
def readsNonEmpty (charSigned : Bool) (obj : CircularBuffer) : List Op → Bool
  | [] => true
  | op :: ops => streamOk obj op && readsNonEmpty charSigned (call charSigned obj op).2 ops

/-- Bytes a call takes into the buffer: the count a `write` returns, 0 for a rejected
write (sentinel 0 or -1, or an exception). -/
def accepted : Op → PyObject → Int
  | .write _, .Long n => if 0 < n then n else 0
  | _, _ => 0

/-- Bytes a call hands to its caller: the length of what a `read` returns, the count a
`drop` reports; 0 for a call that raises and hands over nothing. -/
def released : Op → PyObject → Int
  | .read _ _, .Bytes b => b.length
  | .drop _, .Long n => n
  | _, _ => 0

/-- Total of `accepted` along a sequence of calls. -/
def totalAccepted (charSigned : Bool) (obj : CircularBuffer) : List Op → Int
  | [] => 0
  | op :: ops =>
    accepted op (call charSigned obj op).1 + totalAccepted charSigned (call charSigned obj op).2 ops

/-- Total of `released` along a sequence of calls. -/
def totalReleased (charSigned : Bool) (obj : CircularBuffer) : List Op → Int
  | [] => 0
  | op :: ops =>
    released op (call charSigned obj op).1 + totalReleased charSigned (call charSigned obj op).2 ops

/-- Agreement of two buffer states on the cursors and the two counters. -/
def sameCounters (a b : CircularBuffer) : Prop :=
  a.rpos = b.rpos ∧ a.wpos = b.wpos ∧ a.cnt = b.cnt ∧ a.msgcnt = b.msgcnt

instance sameCounters.decidable (a b : CircularBuffer) : Decidable (sameCounters a b) := by
  unfold sameCounters
  infer_instance

/-- The calls `write(b"hello")`, `drop(2 ** 64)`: the count of the `drop` does not fit a C
`long`. -/
def dropTooLarge : List Op := [.write hello, .drop 18446744073709551616]

/-- The object `CircularBuffer(16)` after `write(b"hello")`. -/
def fiveBytes : CircularBuffer := (CircularBuffer_write fresh16 hello).2

/-- The object `CircularBuffer(256)` after `writemsg` of 128 bytes and `writemsg(b"\x09")`. -/
def twoQueued : CircularBuffer :=
  run true fresh256 [.writemsg (List.replicate 128 7), .writemsg [9]]

/-- The object `CircularBuffer(16, empty=EMPTY_EXC)` right after construction. -/
def fresh16Exc : CircularBuffer := { fresh16 with empty := EMPTY_EXC }

/-- Field `size` of the object `CircularBuffer_init` builds for the argument `size`, 0
when the construction fails. -/
def initSize (size : Nat) : Nat :=
  match CircularBuffer_init (some zeroMem) size EMPTY_EMPTY FULL_ZERO with
  | .ok obj => obj.size
  | .error _ => 0

/-- Extent of the block `CircularBuffer_init` requests for the argument `size`, 0 when the
construction fails. -/
def initAlloc (size : Nat) : Nat :=
  match CircularBuffer_init (some zeroMem) size EMPTY_EMPTY FULL_ZERO with
  | .ok obj => obj.alloc
  | .error _ => 0

/-- Field `msgsize_bytes` of the object `CircularBuffer_init` builds for the argument
`size`, 0 when the construction fails. -/
def initHeaderWidth (size : Nat) : Nat :=
  match CircularBuffer_init (some zeroMem) size EMPTY_EMPTY FULL_ZERO with
  | .ok obj => obj.msgsize_bytes
  | .error _ => 0

/-- Number of header bytes `get_msgsize` reads and `writemsg` stores: the first one
unconditionally, the next ones under the nested tests `msgsize_bytes > 1`, `> 2`, `> 3`. -/
def hdrCount (msgsize_bytes : Nat) : Nat :=
  if msgsize_bytes > 3 then 4
  else if msgsize_bytes > 2 then 3
  else if msgsize_bytes > 1 then 2
  else 1

/-- Membership of offset `i` in the span of a copy of `len` bytes at offset `start`. -/
def inSpan (start len i : Nat) : Bool := decide (start ≤ i) && decide (i < start + len)

/-- Membership of offset `i` among the offsets of the first `k` header bytes at `p`. -/
def inHeader (size p k i : Nat) : Bool := (List.range k).any (fun j => hdrPos size p j == i)

/-- Offsets `get_msgsize` and the copy of the body that follows it read: the header
bytes when `cnt` covers the header, then `msgsize` bytes from the moved `rpos`. -/
def msgTouches (charSigned : Bool) (obj : CircularBuffer) (i : Nat) : Bool :=
  (if obj.cnt < (obj.msgsize_bytes : Int) then false
   else inHeader obj.size obj.rpos (hdrCount obj.msgsize_bytes) i) ||
  inSpan (get_msgsize charSigned obj).2.rpos (get_msgsize charSigned obj).1 i

/-- The storage offsets a call copies to or from (`memcpy`, `PyBytes_FromStringAndSize`,
and the single loads and stores of header bytes). -/
def touches (charSigned : Bool) (obj : CircularBuffer) (op : Op) (i : Nat) : Bool :=
  match op with
  | .clear => false
  | .drop _ => false
  | .peek n | .read n _ =>
    match (peek obj n).2 with
    | some tmp_cnt => inSpan obj.rpos tmp_cnt i
    | none => false
  | .read_into dst n =>
    let cnt := n % 4294967296
    if (cnt : Int) > dst.length then false
    else
      let cnt := if cnt = 0 then toUInt obj.cnt else cnt
      let cnt := if (cnt : Int) > dst.length then toUInt dst.length else cnt
      inSpan obj.rpos cnt i
  | .write data =>
    if (data.length : Int) > (obj.size : Int) - obj.cnt then false
    else inSpan obj.wpos data.length i
  | .peekmsg | .readmsg =>
    match get_rbuffer obj with
    | .NULL _ => false
    | .None => false
    | _ => msgTouches charSigned obj i
  | .dropmsg =>
    if obj.cnt < (obj.msgsize_bytes : Int) then false
    else inHeader obj.size obj.rpos (hdrCount obj.msgsize_bytes) i
  | .readmsg_into dst =>
    if ((get_msgsize charSigned obj).1 : Int) > dst.length then
      (if obj.cnt < (obj.msgsize_bytes : Int) then false
       else inHeader obj.size obj.rpos (hdrCount obj.msgsize_bytes) i)
    else msgTouches charSigned obj i
  | .writemsg data =>
    let buflen := toUInt data.length
    if (buflen : Int) > (obj.size : Int) - obj.cnt - (obj.msgsize_bytes : Int) then false
    else
      inHeader obj.size obj.wpos (hdrCount obj.msgsize_bytes) i ||
      inSpan (hdrPos obj.size obj.wpos (hdrCount obj.msgsize_bytes)) buflen i

/-- The calls whose copies the claim on storage offsets is about. -/
def copyOp : Op → Bool
  | .write _ => true
  | .writemsg _ => true
  | .peek _ => true
  | .read _ _ => true
  | .readmsg => true
  | .peekmsg => true
  | _ => false

/-- Admission of one call to a run of `write`, `read`, `peek`, `drop`, `writemsg`,
`readmsg`, `peekmsg` and `dropmsg`; a `read` is admitted unless `peek` hands it `None`,
the case in which `read` uses its local `cnt` uninitialised. -/
def coreOk (obj : CircularBuffer) : Op → Bool
  | .write _ => true
  | .peek _ => true
  | .drop _ => true
  | .writemsg _ => true
  | .readmsg => true
  | .peekmsg => true
  | .dropmsg => true
  | .read _ _ => get_rbuffer obj != .None
  | _ => false

/-- A sequence of calls each admitted by `coreOk` in the state it is issued in. -/
def coreRun (charSigned : Bool) (obj : CircularBuffer) : List Op → Bool
  | [] => true
  | op :: ops => coreOk obj op && coreRun charSigned (call charSigned obj op).2 ops

/-- The object `CircularBuffer(257)` right after construction, on zeroed storage. -/
def fresh257 : CircularBuffer :=
  { buf := zeroMem, alloc := 514, size := 257, cnt := 0, rpos := 0, wpos := 0, msgcnt := 0,
    msgsize_bytes := 2, empty := EMPTY_EMPTY, full := FULL_ZERO }

/-! ## Lemmas on the storage and on the header code -/

theorem get_msgsize_eq (cs : Bool) (obj : CircularBuffer)
    (hw1 : 1 ≤ obj.msgsize_bytes) (hw4 : obj.msgsize_bytes ≤ 4)
    (hc : (obj.msgsize_bytes : Int) ≤ obj.cnt) :
    get_msgsize cs obj =
      (if (hdrValue cs obj obj.msgsize_bytes : Int) > obj.cnt - obj.msgsize_bytes
        then toUInt (obj.cnt - obj.msgsize_bytes) else hdrValue cs obj obj.msgsize_bytes,
       { obj with
         rpos := hdrPos obj.size obj.rpos obj.msgsize_bytes
         cnt := obj.cnt - obj.msgsize_bytes }) := by
  have hnot : ¬ (obj.cnt < (obj.msgsize_bytes : Int)) := by omega
  simp only [get_msgsize]
  rw [if_neg hnot]
  obtain h | h | h | h : obj.msgsize_bytes = 1 ∨ obj.msgsize_bytes = 2 ∨
      obj.msgsize_bytes = 3 ∨ obj.msgsize_bytes = 4 := by omega
  all_goals simp [h, hdrValue, hdrTerm, hdrPos]

theorem le_of_testBit_imp : ∀ (a b : Nat),
    (∀ j, a.testBit j = true → b.testBit j = true) → a ≤ b := by
  intro a
  induction a using Nat.strong_induction_on with
  | _ a ih =>
    intro b h
    by_cases ha : a = 0
    · omega
    · have h2 : a / 2 ≤ b / 2 := by
        apply ih (a / 2) (by omega)
        intro j hj
        have := h (j + 1)
        rw [Nat.testBit_succ, Nat.testBit_succ] at this
        exact this hj
      have h0 := h 0
      rw [Nat.testBit_zero, Nat.testBit_zero] at h0
      simp only [decide_eq_true_eq] at h0
      omega

theorem and_255 (x : Nat) : x &&& 255 = x % 256 := by
  have := Nat.and_pow_two_sub_one_eq_mod x 8
  simpa using this

/-- The contribution of one header byte read as `char`, against its unsigned value. -/
theorem charTerm_testBit (cs : Bool) (b : Byte) (i : Nat) (hi : i ≤ 3) (j : Nat)
    (h : (b.val * 256 ^ i).testBit j = true) :
    (toUInt (charVal cs b * (256 : Int) ^ i)).testBit j = true := by
  have hb : b.val < 256 := b.isLt
  by_cases hs : (cs && decide (128 ≤ b.val)) = true
  · simp only [charVal, hs, if_true]
    obtain rfl | rfl | rfl | rfl : i = 0 ∨ i = 1 ∨ i = 2 ∨ i = 3 := by omega
    · have e : toUInt (((b.val : Int) - 256) * (256 : Int) ^ 0) = 2 ^ 8 * 16777215 + b.val := by
        simp at hs
        unfold toUInt; omega
      rw [e, Nat.mul_add_lt_is_or (by omega), Nat.testBit_or]
      simp at h
      simp [h]
    · have e : toUInt (((b.val : Int) - 256) * (256 : Int) ^ 1) = 2 ^ 16 * 65535 + b.val * 256 := by
        simp at hs
        unfold toUInt; omega
      rw [e, Nat.mul_add_lt_is_or (by omega), Nat.testBit_or]
      simp at h
      simp [h]
    · have e : toUInt (((b.val : Int) - 256) * (256 : Int) ^ 2) = 2 ^ 24 * 255 + b.val * 65536 := by
        simp at hs
        unfold toUInt; omega
      rw [e, Nat.mul_add_lt_is_or (by omega), Nat.testBit_or]
      simp at h
      simp [h]
    · have e : toUInt (((b.val : Int) - 256) * (256 : Int) ^ 3) = b.val * 16777216 := by
        simp at hs
        unfold toUInt; omega
      rw [e]
      simpa using h
  · simp only [charVal, hs]
    have e : toUInt ((b.val : Int) * (256 : Int) ^ i) = b.val * 256 ^ i := by
      obtain rfl | rfl | rfl | rfl : i = 0 ∨ i = 1 ∨ i = 2 ∨ i = 3 := by omega
      all_goals (unfold toUInt; omega)
    simp only [Bool.false_eq_true, if_false]
    rw [e]; exact h

theorem leValue_testBit (cs : Bool) (obj : CircularBuffer) (k : Nat) (hk : k ≤ 4) (j : Nat)
    (h : (leValue obj k).testBit j = true) : (hdrValue cs obj k).testBit j = true := by
  induction k with
  | zero => simp [leValue] at h
  | succ i ih =>
    simp only [leValue, Nat.testBit_or, Bool.or_eq_true] at h
    simp only [hdrValue, Nat.testBit_or, Bool.or_eq_true]
    rcases h with h | h
    · exact Or.inl (ih (by omega) h)
    · exact Or.inr (charTerm_testBit cs _ i (by omega) j h)

theorem leValue_le_hdrValue (cs : Bool) (obj : CircularBuffer) (k : Nat) (hk : k ≤ 4) :
    leValue obj k ≤ hdrValue cs obj k :=
  le_of_testBit_imp _ _ (leValue_testBit cs obj k hk)

theorem toByte_val (n : Nat) : (toByte n).val = n % 256 := rfl

theorem leValue_encoded (obj : CircularBuffer) (n k : Nat) (hk1 : 1 ≤ k) (hk : k ≤ 4)
    (hn : n < 256 ^ k)
    (hb : ∀ i, i < k →
      obj.buf (hdrPos obj.size obj.rpos i) = toByte ((n >>> (8 * i)) &&& 0xff)) :
    leValue obj k = n := by
  have e1 : ∀ a b : Nat, b < 256 → a < 256 → a ||| b * 256 = a + b * 256 := by
    intro a b _ ha
    have := Nat.mul_add_lt_is_or (i := 8) (b := a) (by omega) b
    have e : b * 256 = 2 ^ 8 * b := by omega
    rw [Nat.or_comm, e, ← this]; omega
  have e2 : ∀ a b : Nat, b < 256 → a < 65536 → a ||| b * 65536 = a + b * 65536 := by
    intro a b _ ha
    have := Nat.mul_add_lt_is_or (i := 16) (b := a) (by omega) b
    have e : b * 65536 = 2 ^ 16 * b := by omega
    rw [Nat.or_comm, e, ← this]; omega
  have e3 : ∀ a b : Nat, b < 256 → a < 16777216 → a ||| b * 16777216 = a + b * 16777216 := by
    intro a b _ ha
    have := Nat.mul_add_lt_is_or (i := 24) (b := a) (by omega) b
    have e : b * 16777216 = 2 ^ 24 * b := by omega
    rw [Nat.or_comm, e, ← this]; omega
  obtain rfl | rfl | rfl | rfl : k = 1 ∨ k = 2 ∨ k = 3 ∨ k = 4 := by omega
  · have h0 := hb 0 (by omega)
    simp only [leValue, h0, toByte_val, and_255, Nat.shiftRight_eq_div_pow]
    simp
    omega
  · have h0 := hb 0 (by omega)
    have h1 := hb 1 (by omega)
    simp only [leValue, h0, h1, toByte_val, and_255, Nat.shiftRight_eq_div_pow]
    simp
    rw [e1 _ _ (by omega) (by omega)]
    omega
  · have h0 := hb 0 (by omega)
    have h1 := hb 1 (by omega)
    have h2 := hb 2 (by omega)
    simp only [leValue, h0, h1, h2, toByte_val, and_255, Nat.shiftRight_eq_div_pow]
    simp
    rw [e1 _ _ (by omega) (by omega), e2 _ _ (by omega) (by omega)]
    omega
  · have h0 := hb 0 (by omega)
    have h1 := hb 1 (by omega)
    have h2 := hb 2 (by omega)
    have h3 := hb 3 (by omega)
    simp only [leValue, h0, h1, h2, h3, toByte_val, and_255, Nat.shiftRight_eq_div_pow]
    simp
    rw [e1 _ _ (by omega) (by omega), e2 _ _ (by omega) (by omega),
      e3 _ _ (by omega) (by omega)]
    omega

theorem readBytes_length (buf : Nat → Byte) (pos n : Nat) : (readBytes buf pos n).length = n := by
  simp [readBytes]

theorem readBytes_writeBytes_self (buf : Nat → Byte) (pos : Nat) (data : List Byte) :
    readBytes (writeBytes buf pos data) pos data.length = data := by
  apply List.ext_getElem
  · simp [readBytes]
  · intro i h1 h2
    simp [readBytes, writeBytes, h2]

theorem toUInt_natCast (n : Nat) (h : n < 4294967296) : toUInt (n : Int) = n := by
  unfold toUInt
  omega

theorem writemsg_eq (obj : CircularBuffer) (data : List Byte)
    (hw1 : 1 ≤ obj.msgsize_bytes) (hw4 : obj.msgsize_bytes ≤ 4)
    (hfit : ¬ ((toUInt data.length : Int) > (obj.size : Int) - obj.cnt - obj.msgsize_bytes)) :
    CircularBuffer_writemsg obj data =
      (.Long (toUInt data.length),
       { obj with
         buf := writeBytes (hdrStore obj.size obj.wpos (toUInt data.length) obj.buf
                  obj.msgsize_bytes)
                (hdrPos obj.size obj.wpos obj.msgsize_bytes) (data.take (toUInt data.length))
         wpos := wrap obj.size (hdrPos obj.size obj.wpos obj.msgsize_bytes + toUInt data.length)
         cnt := obj.cnt + (((obj.msgsize_bytes + toUInt data.length) % 4294967296 : Nat) : Int)
         msgcnt := obj.msgcnt + 1 }) := by
  simp only [CircularBuffer_writemsg]
  rw [if_neg hfit]
  obtain h | h | h | h : obj.msgsize_bytes = 1 ∨ obj.msgsize_bytes = 2 ∨
      obj.msgsize_bytes = 3 ∨ obj.msgsize_bytes = 4 := by omega
  all_goals simp [h, hdrStore, hdrPos]

theorem hdrPos_eq (size p : Nat) (hp : p < size) :
    ∀ i, i ≤ size → hdrPos size p i = if p + i < size then p + i else p + i - size := by
  intro i
  induction i with
  | zero => intro _; simp [hdrPos, hp]
  | succ i ih =>
    intro hi
    have := ih (by omega)
    simp only [hdrPos, this, wrap]
    split_ifs <;> omega

theorem writeBytes_outside (buf : Nat → Byte) (pos : Nat) (data : List Byte) (i : Nat)
    (h : i < pos ∨ pos + data.length ≤ i) : writeBytes buf pos data i = buf i := by
  unfold writeBytes
  split_ifs with h1
  · rfl
  · have : data.length ≤ i - pos := by omega
    simp [List.getElem?_eq_none this]

theorem hdrStore_get (size w n : Nat) (buf : Nat → Byte) (hw : w < size) :
    ∀ k i, k ≤ size → i < k →
      hdrStore size w n buf k (hdrPos size w i) = toByte ((n >>> (8 * i)) &&& 0xff) := by
  intro k
  induction k with
  | zero => intro i _ hi; omega
  | succ k ih =>
    intro i hk hi
    simp only [hdrStore, writeByte]
    by_cases hik : i = k
    · subst hik; simp
    · have hne : hdrPos size w i ≠ hdrPos size w k := by
        rw [hdrPos_eq size w hw i (by omega), hdrPos_eq size w hw k (by omega)]
        split_ifs <;> omega
      rw [if_neg hne]
      exact ih i (by omega) (by omega)

theorem headerWidth_bounds (size : Nat) (h : size < 4294967296) :
    1 ≤ headerWidth size ∧ headerWidth size ≤ 4 ∧ size ≤ 256 ^ headerWidth size := by
  unfold headerWidth
  split_ifs <;> simp <;> omega

/-- The storage after an accepted `writemsg` holds the encoded length at the header
offsets. -/
theorem writemsg_header_bytes (size w n k : Nat) (buf : Nat → Byte) (data : List Byte)
    (hw : w < size) (hfit : k + data.length ≤ size) (i : Nat) (hi : i < k) :
    writeBytes (hdrStore size w n buf k) (hdrPos size w k) data (hdrPos size w i) =
      toByte ((n >>> (8 * i)) &&& 0xff) := by
  rw [writeBytes_outside, hdrStore_get size w n buf hw k i (by omega) hi]
  rw [hdrPos_eq size w hw i (by omega), hdrPos_eq size w hw k (by omega)]
  split_ifs <;> omega

theorem get_rbuffer_self (o : CircularBuffer) (h : o.cnt ≠ 0) : get_rbuffer o = .Self := by
  simp [get_rbuffer, h]

theorem readmsg_eq (cs : Bool) (o : CircularBuffer) (read : Bool)
    (hw1 : 1 ≤ o.msgsize_bytes) (hw4 : o.msgsize_bytes ≤ 4)
    (hc : (o.msgsize_bytes : Int) ≤ o.cnt) :
    readmsg cs o read =
      (.Bytes (readBytes o.buf (hdrPos o.size o.rpos o.msgsize_bytes) (clampedSize cs o)),
       if read then
         { o with
           rpos := wrap o.size (hdrPos o.size o.rpos o.msgsize_bytes + clampedSize cs o)
           cnt := o.cnt - o.msgsize_bytes - clampedSize cs o
           msgcnt := o.msgcnt - 1 }
       else { o with cnt := toUInt o.cnt }) := by
  have hne : o.cnt ≠ 0 := by omega
  simp only [readmsg]
  rw [get_rbuffer_self o hne]
  simp only []
  rw [get_msgsize_eq cs o hw1 hw4 hc]
  cases read <;> simp [clampedSize]

theorem toUInt_of_range (x : Int) (h0 : 0 ≤ x) (h1 : x < 4294967296) : (toUInt x : Int) = x := by
  unfold toUInt
  omega

theorem toUInt_lt (x : Int) : toUInt x < 4294967296 := by
  unfold toUInt
  omega

/-- A count that fits a C `long` is converted unchanged, without failure. -/
theorem PyLong_AsLong_of_range (n : Int) (h : inLong n = true) : PyLong_AsLong n = (n, false) := by
  simp only [inLong, decide_eq_true_eq] at h
  simp only [PyLong_AsLong]
  rw [if_pos h]

/-- An `unsigned int` value fits a C `long`. -/
theorem inLong_natCast (n : Nat) (h : n < 4294967296) : inLong (n : Int) = true := by
  simp only [inLong, decide_eq_true_eq]
  constructor
  · have h0 : (0 : Int) ≤ (n : Int) := Int.ofNat_nonneg n
    have h1 : (-9223372036854775808 : Int) ≤ 0 := by norm_num
    exact le_trans h1 h0
  · have h0 : (n : Int) < 4294967296 := by exact_mod_cast h
    have h1 : (4294967296 : Int) ≤ 9223372036854775808 := by norm_num
    exact lt_of_lt_of_le h0 h1

/-- The call `CircularBuffer_read` in terms of `peek`: `NULL` is passed on with the object
untouched, any other result comes with the cursor and `cnt` moved by the local `cnt`. -/
theorem read_eq (obj : CircularBuffer) (n : Int) (junk : Nat) :
    CircularBuffer_read obj n junk =
      match get_rbuffer obj with
      | .NULL e => (.NULL e, obj)
      | _ =>
        ((peek obj n).1,
         { obj with
           rpos := wrap obj.size (obj.rpos + (peek obj n).2.getD (junk % 4294967296))
           cnt := obj.cnt - (((peek obj n).2.getD (junk % 4294967296) : Nat) : Int) }) := by
  simp only [CircularBuffer_read, peek]
  cases get_rbuffer obj <;> try rfl
  all_goals cases (PyLong_AsLong n).2 <;> rfl

/-- The call `read(n)` on a buffer that is not empty, with a count that fits a C `long`:
the first `min(n, cnt)` bytes (the count as an `unsigned int`) from `rpos`. -/
theorem read_of_range (obj : CircularBuffer) (n : Int) (junk : Nat)
    (hn : inLong n = true) (hne : obj.cnt ≠ 0) :
    CircularBuffer_read obj n junk =
      (.Bytes (readBytes obj.buf obj.rpos
          (if (toUInt n : Int) > obj.cnt then toUInt obj.cnt else toUInt n)),
       { obj with
         rpos := wrap obj.size
           (obj.rpos + (if (toUInt n : Int) > obj.cnt then toUInt obj.cnt else toUInt n))
         cnt := obj.cnt -
           ((if (toUInt n : Int) > obj.cnt then toUInt obj.cnt else toUInt n : Nat) : Int) }) := by
  have hl := PyLong_AsLong_of_range n hn
  simp only [CircularBuffer_read, peek, hl, handBack, get_rbuffer_self obj hne, Option.getD_some]

/-- Effect of one `write`, `drop` or non-empty `read` on `cnt` and `size`, the counts of
`drop` and `read` fitting a C `long`. -/
theorem stream_call (cs : Bool) (obj : CircularBuffer) (op : Op)
    (hsize : obj.size < 4294967296) (h0 : 0 ≤ obj.cnt) (h1 : obj.cnt ≤ obj.size)
    (hop : streamOk obj op = true) :
    (call cs obj op).2.size = obj.size ∧
    (call cs obj op).2.cnt =
      obj.cnt + accepted op (call cs obj op).1 - released op (call cs obj op).1 ∧
    0 ≤ (call cs obj op).2.cnt ∧ (call cs obj op).2.cnt ≤ obj.size := by
  cases op with
  | write data =>
    simp only [call, CircularBuffer_write]
    split_ifs <;> simp [accepted, released] <;> omega
  | drop n =>
    have hu := toUInt_of_range obj.cnt h0 (by omega)
    have hl := PyLong_AsLong_of_range n (by simpa [streamOk] using hop)
    simp only [call, CircularBuffer_drop, hl, handBack, accepted, released]
    split_ifs <;> simp <;> omega
  | read n junk =>
    have hu := toUInt_of_range obj.cnt h0 (by omega)
    have hop' : obj.cnt ≠ 0 ∧ inLong n = true := by simpa [streamOk] using hop
    have hne : obj.cnt ≠ 0 := hop'.1
    have hl := PyLong_AsLong_of_range n hop'.2
    simp only [call, CircularBuffer_read, peek, hl, handBack, get_rbuffer_self obj hne, accepted,
      released, Option.getD_some, readBytes_length]
    split_ifs <;> simp <;> omega
  | clear => simp [streamOk] at hop
  | peek n => simp [streamOk] at hop
  | read_into dst n => simp [streamOk] at hop
  | peekmsg => simp [streamOk] at hop
  | dropmsg => simp [streamOk] at hop
  | readmsg => simp [streamOk] at hop
  | readmsg_into dst => simp [streamOk] at hop
  | writemsg data => simp [streamOk] at hop

theorem stream_run (cs : Bool) (ops : List Op) : ∀ (obj : CircularBuffer),
    obj.size < 4294967296 → 0 ≤ obj.cnt → obj.cnt ≤ obj.size → readsNonEmpty cs obj ops = true →
    (run cs obj ops).cnt = obj.cnt + totalAccepted cs obj ops - totalReleased cs obj ops ∧
    0 ≤ (run cs obj ops).cnt ∧ (run cs obj ops).cnt ≤ obj.size := by
  induction ops with
  | nil => intro obj _ h0 h1 _; simp [run, totalAccepted, totalReleased, h0, h1]
  | cons op ops ih =>
    intro obj hsize h0 h1 hv
    simp only [readsNonEmpty, Bool.and_eq_true] at hv
    obtain ⟨hop, hrest⟩ := hv
    obtain ⟨hs, hc, hc0, hc1⟩ := stream_call cs obj op hsize h0 h1 hop
    have := ih (call cs obj op).2 (by rw [hs]; exact hsize) hc0 (by rw [hs]; exact hc1) hrest
    simp only [run, totalAccepted, totalReleased]
    rw [hs] at this
    omega

theorem readsNonEmpty_take (cs : Bool) (ops : List Op) : ∀ (obj : CircularBuffer) (k : Nat),
    readsNonEmpty cs obj ops = true → readsNonEmpty cs obj (ops.take k) = true := by
  induction ops with
  | nil => intro obj k h; simpa using h
  | cons op ops ih =>
    intro obj k h
    cases k with
    | zero => simp [readsNonEmpty]
    | succ k =>
      simp only [readsNonEmpty, Bool.and_eq_true, List.take_succ_cons] at h ⊢
      exact ⟨h.1, ih _ k h.2⟩

/-- Frame of `get_msgsize`: it assigns `rpos` and `cnt` only. -/
theorem get_msgsize_frame (cs : Bool) (obj : CircularBuffer) :
    (get_msgsize cs obj).2 =
      { obj with rpos := (get_msgsize cs obj).2.rpos, cnt := (get_msgsize cs obj).2.cnt } := by
  unfold get_msgsize
  simp only []
  split_ifs <;> rfl

theorem peek_frame (obj : CircularBuffer) (n : Int) : (CircularBuffer_peek obj n).2 = obj := rfl

theorem peekmsg_frame (cs : Bool) (obj : CircularBuffer)
    (h0 : 0 ≤ obj.cnt) (h1 : obj.cnt < 4294967296) :
    (CircularBuffer_peekmsg cs obj).2 = obj := by
  have hu := toUInt_of_range obj.cnt h0 h1
  unfold CircularBuffer_peekmsg readmsg
  cases hg : get_rbuffer obj <;> simp only []
  all_goals
    rw [get_msgsize_frame cs obj]
    simp [hu]

theorem get_msgsize_cnt_le (cs : Bool) (obj : CircularBuffer) :
    (get_msgsize cs obj).2.size = obj.size ∧ (get_msgsize cs obj).2.cnt ≤ obj.cnt := by
  unfold get_msgsize
  simp only []
  split_ifs <;> simp

theorem init_ok (mem : Option (Nat → Byte)) (size empty full : Nat) (obj : CircularBuffer)
    (h : CircularBuffer_init mem size empty full = .ok obj) :
    16 ≤ obj.size ∧ obj.size < 4294967296 ∧ obj.cnt = 0 ∧ obj.rpos = 0 ∧ obj.wpos = 0 ∧
    obj.msgcnt = 0 ∧ obj.msgsize_bytes = headerWidth obj.size := by
  unfold CircularBuffer_init at h
  simp only [] at h
  split_ifs at h with hlt
  cases mem with
  | none => simp at h
  | some buf =>
    simp only [] at h
    have hobj := (Except.ok.inj h).symm
    subst hobj
    exact ⟨by simp only []; omega, by simp only []; omega, rfl, rfl, rfl, rfl, rfl⟩

theorem hdrValue_unsigned (obj : CircularBuffer) (k : Nat) (hk : k ≤ 4) :
    hdrValue false obj k = leValue obj k := by
  induction k with
  | zero => rfl
  | succ i ih =>
    have hb : (obj.buf (hdrPos obj.size obj.rpos i)).val < 256 := (obj.buf _).isLt
    have e : hdrTerm false obj i = (obj.buf (hdrPos obj.size obj.rpos i)).val * 256 ^ i := by
      simp only [hdrTerm, charVal, Bool.false_and, Bool.false_eq_true, if_false]
      obtain rfl | rfl | rfl | rfl : i = 0 ∨ i = 1 ∨ i = 2 ∨ i = 3 := by omega
      all_goals (unfold toUInt; omega)
    simp only [hdrValue, leValue, ih (by omega), e]

theorem readBytes_congr (b1 b2 : Nat → Byte) (pos n : Nat)
    (h : ∀ i, pos ≤ i → i < pos + n → b1 i = b2 i) : readBytes b1 pos n = readBytes b2 pos n := by
  unfold readBytes
  apply List.map_congr_left
  intro i hi
  exact h (pos + i) (by omega) (by have := List.mem_range.mp hi; omega)

theorem hdrStore_other (size w n : Nat) (buf : Nat → Byte) (x : Nat) :
    ∀ k, (∀ i, i < k → hdrPos size w i ≠ x) → hdrStore size w n buf k x = buf x := by
  intro k
  induction k with
  | zero => intro _; rfl
  | succ k ih =>
    intro h
    simp only [hdrStore, writeByte]
    rw [if_neg (fun e => h k (by omega) e.symm)]
    exact ih (fun i hi => h i (by omega))

/-- A message stored at `rpos` (header encoding `n`, then `n` bytes) is what `readmsg`
returns, when `n` does not exceed the bytes left after the header and either `char` is
unsigned or `n` is all that is left. -/
theorem readmsg_stored (cs : Bool) (o : CircularBuffer) (n : Nat)
    (hw1 : 1 ≤ o.msgsize_bytes) (hw4 : o.msgsize_bytes ≤ 4)
    (hn : n < 256 ^ o.msgsize_bytes) (hn32 : n < 4294967296)
    (hb : ∀ i, i < o.msgsize_bytes →
      o.buf (hdrPos o.size o.rpos i) = toByte ((n >>> (8 * i)) &&& 0xff))
    (hc : (o.msgsize_bytes : Int) + n ≤ o.cnt)
    (hs : cs = false ∨ o.cnt = (o.msgsize_bytes : Int) + n) :
    CircularBuffer_readmsg cs o =
      (.Bytes (readBytes o.buf (hdrPos o.size o.rpos o.msgsize_bytes) n),
       { o with
         rpos := wrap o.size (hdrPos o.size o.rpos o.msgsize_bytes + n)
         cnt := o.cnt - o.msgsize_bytes - n
         msgcnt := o.msgcnt - 1 }) := by
  have hle := leValue_encoded o n o.msgsize_bytes hw1 hw4 hn hb
  have hge := leValue_le_hdrValue cs o o.msgsize_bytes hw4
  have hclamp : clampedSize cs o = n := by
    unfold clampedSize
    rcases hs with hs | hs
    · subst hs
      rw [hdrValue_unsigned o _ hw4, hle, if_neg (by omega)]
    · split_ifs with h
      · have : o.cnt - (o.msgsize_bytes : Int) = (n : Int) := by omega
        rw [this]
        exact toUInt_natCast n hn32
      · omega
  simp only [CircularBuffer_readmsg]
  rw [readmsg_eq cs o true hw1 hw4 (by omega), hclamp]
  simp


/-- Effect of an accepted `writemsg`, field by field. -/
theorem writemsg_accept (obj : CircularBuffer) (data : List Byte)
    (hw1 : 1 ≤ obj.msgsize_bytes) (hw4 : obj.msgsize_bytes ≤ 4)
    (hsize : obj.size < 4294967296) (h0 : 0 ≤ obj.cnt)
    (hfit : (obj.msgsize_bytes : Int) + data.length ≤ obj.size - obj.cnt) :
    (CircularBuffer_writemsg obj data).1 = .Long data.length ∧
    (CircularBuffer_writemsg obj data).2.buf =
      writeBytes (hdrStore obj.size obj.wpos data.length obj.buf obj.msgsize_bytes)
        (hdrPos obj.size obj.wpos obj.msgsize_bytes) data ∧
    (CircularBuffer_writemsg obj data).2.size = obj.size ∧
    (CircularBuffer_writemsg obj data).2.cnt = obj.cnt + obj.msgsize_bytes + data.length ∧
    (CircularBuffer_writemsg obj data).2.rpos = obj.rpos ∧
    (CircularBuffer_writemsg obj data).2.wpos =
      wrap obj.size (hdrPos obj.size obj.wpos obj.msgsize_bytes + data.length) ∧
    (CircularBuffer_writemsg obj data).2.msgcnt = obj.msgcnt + 1 ∧
    (CircularBuffer_writemsg obj data).2.msgsize_bytes = obj.msgsize_bytes := by
  have hu : toUInt (data.length : Int) = data.length := toUInt_natCast _ (by omega)
  have hacc : ¬ ((toUInt data.length : Int) >
      (obj.size : Int) - obj.cnt - obj.msgsize_bytes) := by
    rw [hu]; omega
  rw [writemsg_eq obj data hw1 hw4 hacc, hu]
  simp only [List.take_length]
  refine ⟨trivial, trivial, trivial, ?_, trivial, trivial, trivial, trivial⟩
  clear hacc hu
  omega

/-- With unsigned `char`, two messages queued on a newly constructed buffer are read back
one by one, whatever their lengths. -/
theorem two_messages_unsigned_char (mem : Option (Nat → Byte)) (size empty full : Nat)
    (obj : CircularBuffer) (p1 p2 : List Byte)
    (hinit : CircularBuffer_init mem size empty full = .ok obj)
    (hfit : 2 * obj.msgsize_bytes + p1.length + p2.length ≤ obj.size) :
    results false obj [.writemsg p1, .writemsg p2, .readmsg, .readmsg] =
      [.Long p1.length, .Long p2.length, .Bytes p1, .Bytes p2] := by
  obtain ⟨_, hsz, hc, hr, hw, _, hhw⟩ := init_ok mem size empty full obj hinit
  obtain ⟨hk1, hk4, hk⟩ := headerWidth_bounds obj.size hsz
  rw [← hhw] at hk1 hk4 hk
  have hp : ∀ p i, p + i < obj.size → hdrPos obj.size p i = p + i := by
    intro p i hi
    rw [hdrPos_eq obj.size p (by omega) i (by omega), if_pos hi]
  -- first write
  obtain ⟨r1, b1, z1, c1, rp1, wp1, -, k1⟩ :=
    writemsg_accept obj p1 hk1 hk4 hsz (by omega) (by omega)
  rw [hw, hp 0 _ (by omega)] at b1 wp1
  simp only [wrap, Nat.zero_add] at wp1 b1
  rw [if_neg (by omega)] at wp1
  rw [hc] at c1
  rw [hr] at rp1
  generalize hs1 : (CircularBuffer_writemsg obj p1).2 = s1 at b1 z1 c1 rp1 wp1 k1
  -- second write
  obtain ⟨r2, b2, z2, c2, rp2, wp2, -, k2⟩ :=
    writemsg_accept s1 p2 (by omega) (by omega) (by omega) (by omega) (by omega)
  rw [z1, wp1, k1] at b2
  rw [z1] at z2
  rw [c1, k1] at c2
  rw [rp1] at rp2
  rw [k1] at k2
  generalize hs2 : (CircularBuffer_writemsg s1 p2).2 = s2 at b2 z2 c2 rp2 k2
  clear wp2
  -- the header of the first message is intact in the final storage
  have hq : hdrPos obj.size (obj.msgsize_bytes + p1.length) obj.msgsize_bytes =
      if 2 * obj.msgsize_bytes + p1.length < obj.size
      then 2 * obj.msgsize_bytes + p1.length else 0 := by
    rw [hdrPos_eq obj.size _ (by omega) _ (by omega)]
    split_ifs <;> omega
  have keep : ∀ x, x < obj.msgsize_bytes + p1.length → s2.buf x = s1.buf x := by
    intro x hx
    rw [b2, writeBytes_outside, hdrStore_other]
    · intro j hj
      rw [hp _ _ (by omega)]
      omega
    · rw [hq]
      split_ifs <;> omega
  have hb1 : ∀ i, i < s2.msgsize_bytes →
      s2.buf (hdrPos s2.size s2.rpos i) = toByte ((p1.length >>> (8 * i)) &&& 0xff) := by
    intro i hi
    rw [z2, rp2, hp 0 i (by omega), Nat.zero_add, keep i (by omega), b1]
    have := writemsg_header_bytes obj.size 0 p1.length obj.msgsize_bytes obj.buf p1
      (by omega) (by omega) i (by omega)
    rw [hp 0 _ (by omega), hp 0 i (by omega)] at this
    simpa using this
  have read1 := readmsg_stored false s2 p1.length (by omega) (by omega)
    (by rw [k2]; omega) (by omega) hb1 (by omega) (Or.inl rfl)
  have body1 : readBytes s2.buf obj.msgsize_bytes p1.length = p1 := by
    rw [readBytes_congr s2.buf s1.buf _ _ (fun x _ hx => keep x hx), b1]
    exact readBytes_writeBytes_self _ _ _
  have e1 : (CircularBuffer_readmsg false s2).1 = .Bytes p1 := by
    rw [read1]
    simp only []
    rw [z2, rp2, k2, hp 0 _ (by omega), Nat.zero_add, body1]
  have b3 : (CircularBuffer_readmsg false s2).2.buf = s2.buf := by rw [read1]
  have z3 : (CircularBuffer_readmsg false s2).2.size = obj.size := by rw [read1]; exact z2
  have c3 : (CircularBuffer_readmsg false s2).2.cnt = (obj.msgsize_bytes : Int) + p2.length := by
    rw [read1]; simp only []; omega
  have rp3 : (CircularBuffer_readmsg false s2).2.rpos = obj.msgsize_bytes + p1.length := by
    rw [read1]
    simp only []
    rw [z2, rp2, k2, hp 0 _ (by omega), Nat.zero_add, wrap, if_neg (by omega)]
  have k3 : (CircularBuffer_readmsg false s2).2.msgsize_bytes = obj.msgsize_bytes := by
    rw [read1]; exact k2
  clear read1
  generalize hs3 : (CircularBuffer_readmsg false s2).2 = s3 at b3 z3 c3 rp3 k3
  have hb2 : ∀ i, i < s3.msgsize_bytes →
      s3.buf (hdrPos s3.size s3.rpos i) = toByte ((p2.length >>> (8 * i)) &&& 0xff) := by
    intro i hi
    rw [b3, z3, rp3, b2]
    exact writemsg_header_bytes _ _ _ _ _ _ (by omega) (by omega) i (by omega)
  have read2 := readmsg_stored false s3 p2.length (by omega) (by omega)
    (by rw [k3]; omega) (by omega) hb2 (by omega) (Or.inl rfl)
  have e2 : (CircularBuffer_readmsg false s3).1 = .Bytes p2 := by
    rw [read2]
    simp only []
    rw [b3, z3, rp3, k3, b2, readBytes_writeBytes_self]
  simp only [results, call, r1, hs1, r2, hs2, e1, hs3, e2]

theorem call_size (cs : Bool) (obj : CircularBuffer) (op : Op) :
    (call cs obj op).2.size = obj.size := by
  have hg := (get_msgsize_cnt_le cs obj).1
  cases op with
  | clear => rfl
  | peek n => rfl
  | drop n => rfl
  | read n junk =>
    simp only [call, read_eq, peek]
    cases get_rbuffer obj <;> rfl
  | read_into dst n =>
    simp only [call, CircularBuffer_read_into]
    split_ifs <;> rfl
  | write data =>
    simp only [call, CircularBuffer_write]
    split_ifs <;> rfl
  | peekmsg =>
    simp only [call, CircularBuffer_peekmsg, readmsg]
    cases get_rbuffer obj <;> simp [hg]
  | dropmsg =>
    simp only [call, CircularBuffer_dropmsg]
    split_ifs <;> simp [hg]
  | readmsg =>
    simp only [call, CircularBuffer_readmsg, readmsg]
    cases get_rbuffer obj <;> simp [hg]
  | readmsg_into dst =>
    simp only [call, CircularBuffer_readmsg_into]
    split_ifs <;> simp [hg]
  | writemsg data =>
    simp only [call, CircularBuffer_writemsg]
    split_ifs <;> rfl

theorem stream_run_size (cs : Bool) (ops : List Op) : ∀ obj : CircularBuffer,
    (run cs obj ops).size = obj.size := by
  induction ops with
  | nil => intro obj; rfl
  | cons op ops ih =>
    intro obj
    simp only [run]
    rw [ih, call_size]

theorem write_rejected_accepts_nothing (cs : Bool) (obj : CircularBuffer) (data : List Byte)
    (h : (data.length : Int) > obj.size - obj.cnt) :
    accepted (.write data) (call cs obj (.write data)).1 = 0 := by
  simp only [call, CircularBuffer_write]
  rw [if_pos h]
  split_ifs <;> simp [accepted]

theorem clampedSize_stored (cs : Bool) (o : CircularBuffer) (n : Nat)
    (hw1 : 1 ≤ o.msgsize_bytes) (hw4 : o.msgsize_bytes ≤ 4)
    (hn : n < 256 ^ o.msgsize_bytes) (hn32 : n < 4294967296)
    (hb : ∀ i, i < o.msgsize_bytes →
      o.buf (hdrPos o.size o.rpos i) = toByte ((n >>> (8 * i)) &&& 0xff))
    (hc : (o.msgsize_bytes : Int) + n ≤ o.cnt)
    (hs : cs = false ∨ o.cnt = (o.msgsize_bytes : Int) + n) :
    clampedSize cs o = n := by
  have hle := leValue_encoded o n o.msgsize_bytes hw1 hw4 hn hb
  have hge := leValue_le_hdrValue cs o o.msgsize_bytes hw4
  unfold clampedSize
  rcases hs with hs | hs
  · subst hs
    rw [hdrValue_unsigned o _ hw4, hle, if_neg (by omega)]
  · split_ifs with h
    · have : o.cnt - (o.msgsize_bytes : Int) = (n : Int) := by omega
      rw [this]
      exact toUInt_natCast n hn32
    · omega

theorem dropmsg_eq (cs : Bool) (o : CircularBuffer)
    (hw1 : 1 ≤ o.msgsize_bytes) (hw4 : o.msgsize_bytes ≤ 4)
    (hc : (o.msgsize_bytes : Int) ≤ o.cnt) :
    CircularBuffer_dropmsg cs o =
      if clampedSize cs o > 0 then
        (.True,
         { o with
           rpos := wrap o.size (hdrPos o.size o.rpos o.msgsize_bytes + clampedSize cs o)
           cnt := o.cnt - o.msgsize_bytes - clampedSize cs o
           msgcnt := o.msgcnt - 1 })
      else
        (.False,
         { o with
           rpos := hdrPos o.size o.rpos o.msgsize_bytes
           cnt := o.cnt - o.msgsize_bytes }) := by
  simp only [CircularBuffer_dropmsg]
  rw [get_msgsize_eq cs o hw1 hw4 hc]
  simp only [clampedSize]

/-- On an empty buffer `dropmsg` returns `False` and assigns nothing. -/
theorem dropmsg_empty (cs : Bool) (o : CircularBuffer) (hw1 : 1 ≤ o.msgsize_bytes)
    (hc : o.cnt = 0) : CircularBuffer_dropmsg cs o = (.False, o) := by
  have : o.cnt < (o.msgsize_bytes : Int) := by omega
  simp [CircularBuffer_dropmsg, get_msgsize, this]

/-- After one accepted `writemsg` of a non-empty payload on a newly constructed buffer,
`dropmsg` returns `True` and leaves `cnt = 0` and `msgcnt = 0`. -/
theorem dropmsg_after_writemsg (cs : Bool) (mem : Option (Nat → Byte)) (size empty full : Nat)
    (obj : CircularBuffer) (p : List Byte)
    (hinit : CircularBuffer_init mem size empty full = .ok obj)
    (hfit : obj.msgsize_bytes + p.length ≤ obj.size) (hne : 1 ≤ p.length) :
    (CircularBuffer_dropmsg cs (CircularBuffer_writemsg obj p).2).1 = .True ∧
    (CircularBuffer_dropmsg cs (CircularBuffer_writemsg obj p).2).2.cnt = 0 ∧
    (CircularBuffer_dropmsg cs (CircularBuffer_writemsg obj p).2).2.msgcnt = 0 := by
  obtain ⟨_, hsz, hc, hr, hw, hm, hhw⟩ := init_ok mem size empty full obj hinit
  obtain ⟨hk1, hk4, hk⟩ := headerWidth_bounds obj.size hsz
  rw [← hhw] at hk1 hk4 hk
  obtain ⟨-, b1, z1, c1, rp1, -, m1, k1⟩ :=
    writemsg_accept obj p hk1 hk4 hsz (by omega) (by omega)
  generalize (CircularBuffer_writemsg obj p).2 = s at b1 z1 c1 rp1 m1 k1
  have hb : ∀ i, i < s.msgsize_bytes →
      s.buf (hdrPos s.size s.rpos i) = toByte ((p.length >>> (8 * i)) &&& 0xff) := by
    intro i hi
    rw [b1, z1, rp1, hr, ← hw]
    exact writemsg_header_bytes _ _ _ _ _ _ (by omega) hfit i (by omega)
  have hcl := clampedSize_stored cs s p.length (by omega) (by omega) (by rw [k1]; omega)
    (by omega) hb (by omega) (Or.inr (by omega))
  rw [dropmsg_eq cs s (by omega) (by omega) (by omega), hcl, if_pos (by omega)]
  refine ⟨rfl, ?_, ?_⟩
  · simp only []; omega
  · simp only []; omega

/-- What `read_into` does when it does not fail: it copies `n` bytes (`cnt` bytes when
`n = 0`), at most `len(dst)`, without comparing with `cnt`. -/
theorem read_into_count (obj : CircularBuffer) (dst : List Byte) (n : Nat)
    (hn : n < 4294967296) (hlen : dst.length < 4294967296)
    (h0 : 0 ≤ obj.cnt) (h1 : obj.cnt < 4294967296) :
    ((CircularBuffer_read_into obj dst n).1 = .NULL .bufferTooSmall ↔ n > dst.length) ∧
    (n ≤ dst.length →
      (CircularBuffer_read_into obj dst n).1 = .True ∧
      (CircularBuffer_read_into obj dst n).2.1.cnt =
        obj.cnt - min (if n = 0 then obj.cnt else n) dst.length) := by
  have hmod : n % 4294967296 = n := Nat.mod_eq_of_lt hn
  have hu := toUInt_of_range obj.cnt h0 h1
  have hd : toUInt (dst.length : Int) = dst.length := toUInt_natCast _ hlen
  simp only [CircularBuffer_read_into, hmod, hd]
  constructor
  · split_ifs <;> simp <;> omega
  · intro hle
    rw [if_neg (by omega)]
    refine ⟨rfl, ?_⟩
    simp only []
    split_ifs <;> omega

/-- With unsigned `char`, `readmsg` on a buffer holding a complete header returns
`min(L, cnt - msgsize_bytes)` bytes, `L` the little-endian value of the header, and moves
the counters accordingly. -/
theorem readmsg_unsigned_postcondition (obj : CircularBuffer)
    (hw1 : 1 ≤ obj.msgsize_bytes) (hw4 : obj.msgsize_bytes ≤ 4)
    (hc : (obj.msgsize_bytes : Int) ≤ obj.cnt) (hc32 : obj.cnt < 4294967296) :
    ∃ body : List Byte,
      (CircularBuffer_readmsg false obj).1 = .Bytes body ∧
      (body.length : Int) =
        min (leValue obj obj.msgsize_bytes : Int) (obj.cnt - obj.msgsize_bytes) ∧
      (CircularBuffer_readmsg false obj).2.cnt = obj.cnt - obj.msgsize_bytes - body.length ∧
      0 ≤ (CircularBuffer_readmsg false obj).2.cnt ∧
      (CircularBuffer_readmsg false obj).2.msgcnt = obj.msgcnt - 1 := by
  have hu := toUInt_of_range (obj.cnt - obj.msgsize_bytes) (by omega) (by omega)
  have hcl : (clampedSize false obj : Int) =
      min (leValue obj obj.msgsize_bytes : Int) (obj.cnt - obj.msgsize_bytes) := by
    unfold clampedSize
    rw [hdrValue_unsigned obj _ hw4]
    split_ifs with h
    · rw [hu]; omega
    · omega
  simp only [CircularBuffer_readmsg]
  rw [readmsg_eq false obj true hw1 hw4 hc]
  refine ⟨_, rfl, ?_, ?_, ?_, ?_⟩
  · rw [readBytes_length]; exact hcl
  · simp only [if_true, readBytes_length]
  · simp only [if_true]; omega
  · simp only [if_true]

/-- On a buffer that is not empty, `readmsg_into` and `readmsg` run the same code: when the
decoded body fits the destination, `readmsg_into` returns `True`, puts the body `readmsg`
returns at the start of `dst` and leaves the buffer `readmsg` leaves; otherwise it fails. -/
theorem readmsg_into_agrees (cs : Bool) (obj : CircularBuffer) (dst : List Byte)
    (hne : obj.cnt ≠ 0) :
    ∃ body : List Byte,
      (CircularBuffer_readmsg cs obj).1 = .Bytes body ∧
      (body.length ≤ dst.length →
        (CircularBuffer_readmsg_into cs obj dst).1 = .True ∧
        (CircularBuffer_readmsg_into cs obj dst).2.1 = (CircularBuffer_readmsg cs obj).2 ∧
        (CircularBuffer_readmsg_into cs obj dst).2.2.take body.length = body) ∧
      (body.length > dst.length →
        (CircularBuffer_readmsg_into cs obj dst).1 = .NULL .bufferTooSmallForMessage) := by
  simp only [CircularBuffer_readmsg, readmsg, get_rbuffer_self obj hne,
    CircularBuffer_readmsg_into]
  refine ⟨_, rfl, ?_, ?_⟩
  · intro h
    rw [readBytes_length] at h
    rw [if_neg (by omega)]
    refine ⟨rfl, rfl, ?_⟩
    simp [readBytes_length]
  · intro h
    rw [readBytes_length] at h
    rw [if_pos (by omega)]

theorem get_msgsize_policy (cs : Bool) (obj : CircularBuffer) (e : Nat) :
    get_msgsize cs { obj with empty := e } =
      ((get_msgsize cs obj).1, { (get_msgsize cs obj).2 with empty := e }) := by
  unfold get_msgsize
  simp only []
  split_ifs <;> rfl

/-- On an empty buffer under `EMPTY_EMPTY`, `read` returns `None` and then moves `rpos`
and `cnt` by the indeterminate value of its local `cnt`. -/
theorem read_empty_uses_junk (obj : CircularBuffer) (n : Int) (junk : Nat)
    (h0 : obj.cnt = 0) (hp : obj.empty = EMPTY_EMPTY) :
    (CircularBuffer_read obj n junk).1 = .None ∧
    (CircularBuffer_read obj n junk).2.rpos = wrap obj.size (obj.rpos + junk % 4294967296) ∧
    (CircularBuffer_read obj n junk).2.cnt = -((junk % 4294967296 : Nat) : Int) := by
  have hg : get_rbuffer obj = .None := by
    simp [get_rbuffer, h0, hp, EMPTY_EMPTY, EMPTY_EXC, EMPTY_WAIT]
  simp [CircularBuffer_read, peek, hg, h0]

theorem wrap_lt (size p : Nat) (h : 0 < size) : wrap size p < size := by
  unfold wrap
  split_ifs <;> omega

/-- `get_msgsize` leaves `rpos` below `size` and does not assign `wpos`. -/
theorem get_msgsize_cursors (cs : Bool) (obj : CircularBuffer)
    (hs : 0 < obj.size) (hr : obj.rpos < obj.size) :
    (get_msgsize cs obj).2.rpos < obj.size ∧ (get_msgsize cs obj).2.wpos = obj.wpos := by
  have w := fun p => wrap_lt obj.size p hs
  unfold get_msgsize
  simp only []
  split_ifs <;> simp [w, hr]

/-- Every method keeps both cursors below `size`. -/
theorem call_cursors (cs : Bool) (obj : CircularBuffer) (op : Op)
    (hs : 0 < obj.size) (hr : obj.rpos < obj.size) (hw : obj.wpos < obj.size) :
    (call cs obj op).2.rpos < obj.size ∧ (call cs obj op).2.wpos < obj.size := by
  have w := fun p => wrap_lt obj.size p hs
  have hg := get_msgsize_cursors cs obj hs hr
  have hz := (get_msgsize_cnt_le cs obj).1
  cases op with
  | clear => simp [call, CircularBuffer_clear, hs]
  | peek n => simp [call, CircularBuffer_peek, hr, hw]
  | drop n => simp [call, CircularBuffer_drop, w, hw]
  | read n junk =>
    simp only [call, read_eq, peek]
    cases get_rbuffer obj <;> simp [w, hr, hw]
  | read_into dst n =>
    simp only [call, CircularBuffer_read_into]
    split_ifs <;> simp [w, hr, hw]
  | write data =>
    simp only [call, CircularBuffer_write]
    split_ifs <;> simp [w, hr, hw]
  | peekmsg =>
    simp only [call, CircularBuffer_peekmsg, readmsg]
    cases get_rbuffer obj <;> simp [hr, hw, hg]
  | dropmsg =>
    simp only [call, CircularBuffer_dropmsg]
    split_ifs <;> simp [hz, w, hw, hg]
  | readmsg =>
    simp only [call, CircularBuffer_readmsg, readmsg]
    cases get_rbuffer obj <;> simp [hz, w, hr, hw, hg]
  | readmsg_into dst =>
    simp only [call, CircularBuffer_readmsg_into]
    split_ifs <;> simp [hz, w, hr, hw, hg]
  | writemsg data =>
    simp only [call, CircularBuffer_writemsg]
    split_ifs <;> simp [w, hr, hw]

theorem run_cursors (cs : Bool) (ops : List Op) : ∀ obj : CircularBuffer,
    0 < obj.size → obj.rpos < obj.size → obj.wpos < obj.size →
    (run cs obj ops).rpos < obj.size ∧ (run cs obj ops).wpos < obj.size := by
  induction ops with
  | nil => intro obj _ hr hw; exact ⟨hr, hw⟩
  | cons op ops ih =>
    intro obj hs hr hw
    obtain ⟨h1, h2⟩ := call_cursors cs obj op hs hr hw
    have hz := call_size cs obj op
    have := ih (call cs obj op).2 (by omega) (by omega) (by omega)
    simp only [run]
    rw [hz] at this
    exact this

theorem hdrPos_lt (size p : Nat) (hs : 0 < size) (hp : p < size) :
    ∀ i, hdrPos size p i < size := by
  intro i
  cases i with
  | zero => exact hp
  | succ i => exact wrap_lt _ _ hs

theorem call_msgsize_bytes (cs : Bool) (obj : CircularBuffer) (op : Op) :
    (call cs obj op).2.msgsize_bytes = obj.msgsize_bytes := by
  have hg : (get_msgsize cs obj).2.msgsize_bytes = obj.msgsize_bytes := by
    rw [get_msgsize_frame]
  cases op with
  | clear => rfl
  | peek n => rfl
  | drop n => rfl
  | read n junk =>
    simp only [call, read_eq, peek]
    cases get_rbuffer obj <;> rfl
  | read_into dst n =>
    simp only [call, CircularBuffer_read_into]
    split_ifs <;> rfl
  | write data =>
    simp only [call, CircularBuffer_write]
    split_ifs <;> rfl
  | peekmsg =>
    simp only [call, CircularBuffer_peekmsg, readmsg]
    cases get_rbuffer obj <;> simp [hg]
  | dropmsg =>
    simp only [call, CircularBuffer_dropmsg]
    split_ifs <;> simp [hg]
  | readmsg =>
    simp only [call, CircularBuffer_readmsg, readmsg]
    cases get_rbuffer obj <;> simp [hg]
  | readmsg_into dst =>
    simp only [call, CircularBuffer_readmsg_into]
    split_ifs <;> simp [hg]
  | writemsg data =>
    simp only [call, CircularBuffer_writemsg]
    split_ifs <;> rfl

/-- The size `get_msgsize` returns never exceeds the `cnt` it leaves, on a buffer with
`0 ≤ cnt < 2 ^ 32`. -/
theorem get_msgsize_bounds (cs : Bool) (obj : CircularBuffer)
    (h0 : 0 ≤ obj.cnt) (h1 : obj.cnt < 4294967296) :
    0 ≤ (get_msgsize cs obj).2.cnt ∧
    ((get_msgsize cs obj).1 : Int) ≤ (get_msgsize cs obj).2.cnt ∧
    (get_msgsize cs obj).2.cnt ≤ obj.cnt := by
  have hu : 0 ≤ obj.cnt - (obj.msgsize_bytes : Int) →
      (toUInt (obj.cnt - (obj.msgsize_bytes : Int)) : Int) = obj.cnt - obj.msgsize_bytes :=
    fun h => toUInt_of_range _ h (by omega)
  unfold get_msgsize
  simp only []
  split_ifs <;> simp only [] <;> omega

theorem inHeader_false (size p k j : Nat) :
    inHeader size p k j = false ↔ ∀ i, i < k → hdrPos size p i ≠ j := by
  simp [inHeader, List.any_eq_false]

theorem inSpan_false (start len j : Nat) :
    inSpan start len j = false ↔ (j < start ∨ start + len ≤ j) := by
  simp only [inSpan, Bool.and_eq_false_iff, decide_eq_false_iff_not]
  omega

theorem inHeader_true (size p k i : Nat) (hi : i < k) :
    inHeader size p k (hdrPos size p i) = true := by
  simp only [inHeader, List.any_eq_true, List.mem_range, beq_iff_eq]
  exact ⟨i, hi, rfl⟩

theorem inSpan_true (start len j : Nat) (h1 : start ≤ j) (h2 : j < start + len) :
    inSpan start len j = true := by
  simp [inSpan, h1, h2]

theorem get_msgsize_buf (cs : Bool) (obj : CircularBuffer) :
    (get_msgsize cs obj).2.buf = obj.buf := by
  rw [get_msgsize_frame]

/-- Storage a call leaves alone: every offset it does not touch. -/
theorem touches_store_frame (cs : Bool) (obj : CircularBuffer) (op : Op) (j : Nat)
    (h : touches cs obj op j = false) : (call cs obj op).2.buf j = obj.buf j := by
  have hb := get_msgsize_buf cs obj
  cases op with
  | clear => rfl
  | peek n => rfl
  | drop n => rfl
  | read n junk =>
    simp only [call, read_eq, peek]
    cases get_rbuffer obj <;> rfl
  | read_into dst n =>
    simp only [call, CircularBuffer_read_into]
    split_ifs <;> rfl
  | peekmsg =>
    simp only [call, CircularBuffer_peekmsg, readmsg]
    cases get_rbuffer obj <;> simp [hb]
  | dropmsg =>
    simp only [call, CircularBuffer_dropmsg]
    split_ifs <;> simp [hb]
  | readmsg =>
    simp only [call, CircularBuffer_readmsg, readmsg]
    cases get_rbuffer obj <;> simp [hb]
  | readmsg_into dst =>
    simp only [call, CircularBuffer_readmsg_into]
    split_ifs <;> simp [hb]
  | write data =>
    simp only [touches] at h
    simp only [call, CircularBuffer_write]
    split_ifs at h ⊢ with h1
    all_goals first | rfl | skip
    simp only [inSpan, Bool.and_eq_false_iff, decide_eq_false_iff_not] at h
    exact writeBytes_outside _ _ _ _ (by omega)
  | writemsg data =>
    simp only [touches] at h
    simp only [call, CircularBuffer_writemsg]
    split_ifs at h ⊢ with h1
    all_goals first | rfl | skip
    all_goals
      simp only [Bool.or_eq_false_iff, inHeader_false, inSpan_false] at h
      obtain ⟨hh, hsp⟩ := h
      have hlen : (data.take (toUInt data.length)).length ≤ toUInt data.length := by
        simp [List.length_take]
      simp only [hdrCount] at hh hsp
    · rw [if_pos (by assumption)] at hh hsp
      have e0 := hh 0 (by omega)
      have e1 := hh 1 (by omega)
      have e2 := hh 2 (by omega)
      have e3 := hh 3 (by omega)
      simp only [hdrPos] at e0 e1 e2 e3 hsp
      simp only []
      rw [writeBytes_outside _ _ _ _ (by omega)]
      simp only [writeByte]
      rw [if_neg (Ne.symm e3), if_neg (Ne.symm e2), if_neg (Ne.symm e1), if_neg (Ne.symm e0)]
    · rw [if_neg (by assumption), if_pos (by assumption)] at hh hsp
      have e0 := hh 0 (by omega)
      have e1 := hh 1 (by omega)
      have e2 := hh 2 (by omega)
      simp only [hdrPos] at e0 e1 e2 hsp
      simp only []
      rw [writeBytes_outside _ _ _ _ (by omega)]
      simp only [writeByte]
      rw [if_neg (Ne.symm e2), if_neg (Ne.symm e1), if_neg (Ne.symm e0)]
    · rw [if_neg (by omega), if_neg (by assumption), if_pos (by assumption)] at hh hsp
      have e0 := hh 0 (by omega)
      have e1 := hh 1 (by omega)
      simp only [hdrPos] at e0 e1 hsp
      simp only []
      rw [writeBytes_outside _ _ _ _ (by omega)]
      simp only [writeByte]
      rw [if_neg (Ne.symm e1), if_neg (Ne.symm e0)]
    · rw [if_neg (by omega), if_neg (by omega), if_neg (by assumption)] at hh hsp
      have e0 := hh 0 (by omega)
      simp only [hdrPos] at e0 hsp
      simp only []
      rw [writeBytes_outside _ _ _ _ (by omega)]
      simp only [writeByte]
      rw [if_neg (Ne.symm e0)]

theorem get_msgsize_congr (cs : Bool) (obj : CircularBuffer) (buf' : Nat → Byte)
    (h : ¬ obj.cnt < (obj.msgsize_bytes : Int) →
      ∀ i, i < hdrCount obj.msgsize_bytes →
        buf' (hdrPos obj.size obj.rpos i) = obj.buf (hdrPos obj.size obj.rpos i)) :
    get_msgsize cs { obj with buf := buf' } =
      ((get_msgsize cs obj).1, { (get_msgsize cs obj).2 with buf := buf' }) := by
  unfold get_msgsize
  simp only []
  by_cases hc : obj.cnt < (obj.msgsize_bytes : Int)
  · rw [if_pos hc, if_pos hc]
  · rw [if_neg hc, if_neg hc]
    have hh := h hc
    simp only [hdrCount] at hh
    by_cases h3 : obj.msgsize_bytes > 3
    · rw [if_pos h3] at hh
      have e0 := hh 0 (by omega)
      have e1 := hh 1 (by omega)
      have e2 := hh 2 (by omega)
      have e3 := hh 3 (by omega)
      simp only [hdrPos] at e0 e1 e2 e3
      have h1 : obj.msgsize_bytes > 1 := by omega
      have h2 : obj.msgsize_bytes > 2 := by omega
      simp only [h1, h2, h3, if_true, e0, e1, e2, e3]
    · by_cases h2 : obj.msgsize_bytes > 2
      · rw [if_neg h3, if_pos h2] at hh
        have e0 := hh 0 (by omega)
        have e1 := hh 1 (by omega)
        have e2 := hh 2 (by omega)
        simp only [hdrPos] at e0 e1 e2
        have h1 : obj.msgsize_bytes > 1 := by omega
        simp only [h1, h2, h3, if_true, if_false, e0, e1, e2]
      · by_cases h1 : obj.msgsize_bytes > 1
        · rw [if_neg h3, if_neg h2, if_pos h1] at hh
          have e0 := hh 0 (by omega)
          have e1 := hh 1 (by omega)
          simp only [hdrPos] at e0 e1
          simp only [h1, h2, h3, if_true, if_false, e0, e1]
        · rw [if_neg h3, if_neg h2, if_neg h1] at hh
          have e0 := hh 0 (by omega)
          simp only [hdrPos] at e0
          simp only [h1, h2, h3, if_false, e0]

/-- What a call returns depends on the storage only at the offsets it touches. -/
theorem touches_load_frame (cs : Bool) (obj : CircularBuffer) (op : Op) (buf' : Nat → Byte)
    (h : ∀ j, touches cs obj op j = true → buf' j = obj.buf j) :
    (call cs { obj with buf := buf' } op).1 = (call cs obj op).1 := by
  have hgr : get_rbuffer { obj with buf := buf' } = get_rbuffer obj := rfl
  cases op with
  | clear => rfl
  | drop n => rfl
  | peek n =>
    simp only [touches, peek] at h
    simp only [call, CircularBuffer_peek, peek, hgr]
    cases hg : get_rbuffer obj <;> simp only [hg] at h ⊢
    all_goals
      congr 2
      apply readBytes_congr
      intro j h1 h2
      exact h j (inSpan_true _ _ _ h1 h2)
  | read n junk =>
    simp only [touches, peek] at h
    simp only [call, read_eq, peek, hgr]
    cases hg : get_rbuffer obj <;> simp only [hg] at h ⊢
    all_goals
      congr 2
      apply readBytes_congr
      intro j h1 h2
      exact h j (inSpan_true _ _ _ h1 h2)
  | read_into dst n =>
    simp only [call, CircularBuffer_read_into]
    split_ifs <;> rfl
  | write data =>
    simp only [call, CircularBuffer_write]
    split_ifs <;> rfl
  | writemsg data =>
    simp only [call, CircularBuffer_writemsg]
    split_ifs <;> rfl
  | peekmsg =>
    simp only [touches] at h
    simp only [call, CircularBuffer_peekmsg, readmsg, hgr]
    cases hg : get_rbuffer obj <;> simp only [hg] at h ⊢
    all_goals
      rw [get_msgsize_congr cs obj buf' (fun hc i hi => h _ (by
        simp only [msgTouches, if_neg hc, inHeader_true _ _ _ _ hi, Bool.true_or]))]
      simp only [Bool.false_eq_true, if_false]
      congr 1
      rw [← get_msgsize_buf cs obj] at h
      apply readBytes_congr
      intro j h1 h2
      exact h j (by simp only [msgTouches, inSpan_true _ _ _ h1 h2, Bool.or_true])
  | readmsg =>
    simp only [touches] at h
    simp only [call, CircularBuffer_readmsg, readmsg, hgr]
    cases hg : get_rbuffer obj <;> simp only [hg] at h ⊢
    all_goals
      rw [get_msgsize_congr cs obj buf' (fun hc i hi => h _ (by
        simp only [msgTouches, if_neg hc, inHeader_true _ _ _ _ hi, Bool.true_or]))]
      simp only [if_true]
      congr 1
      rw [← get_msgsize_buf cs obj] at h
      apply readBytes_congr
      intro j h1 h2
      exact h j (by simp only [msgTouches, inSpan_true _ _ _ h1 h2, Bool.or_true])
  | dropmsg =>
    simp only [touches] at h
    simp only [call, CircularBuffer_dropmsg]
    rw [get_msgsize_congr cs obj buf' (fun hc i hi => h _ (by
      simp only [if_neg hc, inHeader_true _ _ _ _ hi]))]
    simp only []
    split_ifs <;> rfl
  | readmsg_into dst =>
    simp only [touches] at h
    simp only [call, CircularBuffer_readmsg_into]
    rw [get_msgsize_congr cs obj buf' (fun hc i hi => h _ (by
      split_ifs
      · simp only [inHeader_true _ _ _ _ hi]
      · simp only [msgTouches, if_neg hc, inHeader_true _ _ _ _ hi, Bool.true_or]))]
    simp only []
    split_ifs <;> rfl

/-- An admitted call keeps `0 ≤ cnt ≤ size`. -/
theorem core_call_cnt (cs : Bool) (obj : CircularBuffer) (op : Op)
    (hsize : obj.size < 4294967296) (h0 : 0 ≤ obj.cnt) (h1 : obj.cnt ≤ obj.size)
    (hok : coreOk obj op = true) :
    0 ≤ (call cs obj op).2.cnt ∧ (call cs obj op).2.cnt ≤ obj.size := by
  have hu := toUInt_of_range obj.cnt h0 (by omega)
  have hg := get_msgsize_bounds cs obj h0 (by omega)
  cases op with
  | clear => simp [coreOk] at hok
  | read_into dst n => simp [coreOk] at hok
  | readmsg_into dst => simp [coreOk] at hok
  | peek n => exact ⟨h0, h1⟩
  | drop n =>
    have hn := toUInt_lt n
    simp only [call, CircularBuffer_drop]
    split_ifs <;> omega
  | read n junk =>
    simp only [coreOk, bne_iff_ne, ne_eq] at hok
    simp only [call, read_eq, peek]
    cases hgr : get_rbuffer obj <;> simp only [Option.getD_some]
    all_goals first | exact ⟨h0, h1⟩ | exact absurd hgr hok | skip
    all_goals (split_ifs <;> omega)
  | write data =>
    simp only [call, CircularBuffer_write]
    split_ifs <;> (try simp only []) <;> omega
  | writemsg data =>
    simp only [call, CircularBuffer_writemsg]
    split_ifs <;> (try simp only []) <;> omega
  | peekmsg =>
    simp only [call, CircularBuffer_peekmsg, readmsg]
    cases get_rbuffer obj <;> simp only [Bool.false_eq_true, if_false] <;> omega
  | readmsg =>
    simp only [call, CircularBuffer_readmsg, readmsg]
    cases get_rbuffer obj <;> simp only [if_true] <;> omega
  | dropmsg =>
    simp only [call, CircularBuffer_dropmsg]
    split_ifs <;> (try simp only []) <;> omega

/-- On a buffer with `0 ≤ cnt ≤ size` and both cursors below `size`, every offset one of
the six copying calls touches is below `2 * size`. -/
theorem touches_bound (cs : Bool) (obj : CircularBuffer) (op : Op) (i : Nat)
    (hsize : obj.size < 4294967296) (h0 : 0 ≤ obj.cnt) (h1 : obj.cnt ≤ obj.size)
    (hr : obj.rpos < obj.size) (hw : obj.wpos < obj.size)
    (hop : copyOp op = true) (ht : touches cs obj op i = true) : i < 2 * obj.size := by
  have hs : 0 < obj.size := by omega
  have hu := toUInt_of_range obj.cnt h0 (by omega)
  have hg := get_msgsize_bounds cs obj h0 (by omega)
  have hc := get_msgsize_cursors cs obj hs hr
  have hspan : ∀ start len, inSpan start len i = true → start ≤ i ∧ i < start + len := by
    intro start len h
    simpa [inSpan] using h
  have hhdr : ∀ p k, p < obj.size → inHeader obj.size p k i = true → i < obj.size := by
    intro p k hp h
    simp only [inHeader, List.any_eq_true, List.mem_range, beq_iff_eq] at h
    obtain ⟨j, -, rfl⟩ := h
    exact hdrPos_lt _ _ hs hp j
  have hmsg : msgTouches cs obj i = true → i < 2 * obj.size := by
    intro h
    simp only [msgTouches, Bool.or_eq_true] at h
    rcases h with h | h
    · split_ifs at h
      have := hhdr _ _ hr h
      omega
    · have := hspan _ _ h
      omega
  cases op with
  | clear => simp [copyOp] at hop
  | drop n => simp [copyOp] at hop
  | read_into dst n => simp [copyOp] at hop
  | readmsg_into dst => simp [copyOp] at hop
  | dropmsg => simp [copyOp] at hop
  | peek n =>
    simp only [touches, peek] at ht
    cases hgr : get_rbuffer obj <;> simp only [hgr] at ht
    all_goals first | exact absurd ht (by decide) | skip
    all_goals
      have := hspan _ _ ht
      split_ifs at this <;> omega
  | read n junk =>
    simp only [touches, peek] at ht
    cases hgr : get_rbuffer obj <;> simp only [hgr] at ht
    all_goals first | exact absurd ht (by decide) | skip
    all_goals
      have := hspan _ _ ht
      split_ifs at this <;> omega
  | write data =>
    simp only [touches] at ht
    split_ifs at ht
    have := hspan _ _ ht
    omega
  | writemsg data =>
    simp only [touches] at ht
    split_ifs at ht
    simp only [Bool.or_eq_true] at ht
    rcases ht with h | h
    · have := hhdr _ _ hw h
      omega
    · have := hspan _ _ h
      have := hdrPos_lt obj.size obj.wpos hs hw (hdrCount obj.msgsize_bytes)
      have hb := toUInt_lt (data.length : Int)
      omega
  | peekmsg =>
    simp only [touches] at ht
    cases hgr : get_rbuffer obj <;> simp only [hgr] at ht
    all_goals first | exact absurd ht (by decide) | exact hmsg ht
  | readmsg =>
    simp only [touches] at ht
    cases hgr : get_rbuffer obj <;> simp only [hgr] at ht
    all_goals first | exact absurd ht (by decide) | exact hmsg ht

theorem core_run (cs : Bool) (ops : List Op) : ∀ obj : CircularBuffer,
    obj.size < 4294967296 → 0 ≤ obj.cnt → obj.cnt ≤ obj.size →
    obj.rpos < obj.size → obj.wpos < obj.size → coreRun cs obj ops = true →
    (run cs obj ops).size = obj.size ∧
    0 ≤ (run cs obj ops).cnt ∧ (run cs obj ops).cnt ≤ obj.size ∧
    (run cs obj ops).rpos < obj.size ∧ (run cs obj ops).wpos < obj.size := by
  induction ops with
  | nil => intro obj _ h0 h1 hr hw _; exact ⟨rfl, h0, h1, hr, hw⟩
  | cons op ops ih =>
    intro obj hsize h0 h1 hr hw hok
    simp only [coreRun, Bool.and_eq_true] at hok
    have hz := call_size cs obj op
    obtain ⟨c0, c1⟩ := core_call_cnt cs obj op hsize h0 h1 hok.1
    obtain ⟨cr, cw⟩ := call_cursors cs obj op (by omega) hr hw
    have := ih (call cs obj op).2 (by omega) c0 (by omega) (by omega) (by omega) hok.2
    simp only [run]
    rw [hz] at this
    exact this

/-! ## The part of the accounting, frame and underflow behaviour that holds in general -/

/-- Fill accounting where every count of `drop` and `read` fits a C `long`.  For a buffer
`obj` that came out of `CircularBuffer_init` (so `size ≥ 16`) and every sequence `ops` of
`write`, `drop` and `read` calls whose reads are issued on a non-empty buffer, after the
first `k` calls, for every `k`: `cnt` equals the bytes accepted by `write` minus the bytes
returned by `read` or reported by `drop`, and `0 ≤ cnt ≤ size`; a write that does not
fit is rejected and counts 0. -/
theorem fill_accounting (cs : Bool) (mem : Option (Nat → Byte)) (size empty full : Nat)
    (obj : CircularBuffer) (ops : List Op) (k : Nat)
    (hinit : CircularBuffer_init mem size empty full = .ok obj)
    (hops : readsNonEmpty cs obj ops = true) :
    16 ≤ obj.size ∧
    (run cs obj (ops.take k)).cnt =
      totalAccepted cs obj (ops.take k) - totalReleased cs obj (ops.take k) ∧
    0 ≤ (run cs obj (ops.take k)).cnt ∧ (run cs obj (ops.take k)).cnt ≤ obj.size ∧
    (∀ data : List Byte,
      (data.length : Int) > obj.size - (run cs obj (ops.take k)).cnt →
      accepted (.write data) (call cs (run cs obj (ops.take k)) (.write data)).1 = 0) := by
  obtain ⟨h16, hsz, hc, _⟩ := init_ok mem size empty full obj hinit
  have := stream_run cs (ops.take k) obj hsz (by omega) (by omega)
    (readsNonEmpty_take cs ops obj k hops)
  refine ⟨h16, ?_, this.2.1, this.2.2, ?_⟩
  · rw [this.1, hc]; omega
  · intro data hrej
    rw [← (stream_run_size cs (ops.take k) obj)] at hrej
    exact write_rejected_accepts_nothing cs _ data hrej

/-- In every state and for every `n`, `peek(n)` leaves every field of the buffer as it was
and a second `peek(n)` returns the same object.  In every state with `0 ≤ cnt < 2 ^ 32`,
so does `peekmsg()`: there the `unsigned int` copy of `cnt` is exact. -/
theorem peek_peekmsg_frame (cs : Bool) (obj : CircularBuffer) (n : Int) :
    (CircularBuffer_peek obj n).2 = obj ∧
    (CircularBuffer_peek (CircularBuffer_peek obj n).2 n).1 = (CircularBuffer_peek obj n).1 ∧
    (0 ≤ obj.cnt → obj.cnt < 4294967296 →
      (CircularBuffer_peekmsg cs obj).2 = obj ∧
      sameCounters (CircularBuffer_peekmsg cs obj).2 obj ∧
      (CircularBuffer_peekmsg cs (CircularBuffer_peekmsg cs obj).2).1 =
        (CircularBuffer_peekmsg cs obj).1) := by
  refine ⟨rfl, rfl, ?_⟩
  intro h0 h1
  have h := peekmsg_frame cs obj h0 h1
  rw [h]
  exact ⟨rfl, ⟨rfl, rfl, rfl, rfl⟩, rfl⟩

/-- On every buffer with `cnt = 0`, `peek(n)`, `read(n)`, `readmsg()` and `peekmsg()` return
`NULL` with "Buffer is empty" under `EMPTY_EXC` and the object `None` under
`EMPTY_EMPTY`.  On every buffer with `cnt > 0` none of them reads the field `empty`: with
any other value `e` of it each returns the same object and leaves the same buffer. -/
theorem underflow_policy (cs : Bool) (obj : CircularBuffer) (n : Int) (junk : Nat) :
    (obj.cnt = 0 → obj.empty = EMPTY_EXC →
      (CircularBuffer_peek obj n).1 = .NULL .bufferIsEmpty ∧
      (CircularBuffer_read obj n junk).1 = .NULL .bufferIsEmpty ∧
      (CircularBuffer_readmsg cs obj).1 = .NULL .bufferIsEmpty ∧
      (CircularBuffer_peekmsg cs obj).1 = .NULL .bufferIsEmpty) ∧
    (obj.cnt = 0 → obj.empty = EMPTY_EMPTY →
      (CircularBuffer_peek obj n).1 = .None ∧
      (CircularBuffer_read obj n junk).1 = .None ∧
      (CircularBuffer_readmsg cs obj).1 = .None ∧
      (CircularBuffer_peekmsg cs obj).1 = .None) ∧
    (0 < obj.cnt → ∀ e : Nat,
      (CircularBuffer_peek { obj with empty := e } n).1 = (CircularBuffer_peek obj n).1 ∧
      (CircularBuffer_read { obj with empty := e } n junk).1 =
        (CircularBuffer_read obj n junk).1 ∧
      (CircularBuffer_readmsg cs { obj with empty := e }).1 =
        (CircularBuffer_readmsg cs obj).1 ∧
      (CircularBuffer_peekmsg cs { obj with empty := e }).1 =
        (CircularBuffer_peekmsg cs obj).1 ∧
      (CircularBuffer_peek { obj with empty := e } n).2 =
        { (CircularBuffer_peek obj n).2 with empty := e } ∧
      (CircularBuffer_read { obj with empty := e } n junk).2 =
        { (CircularBuffer_read obj n junk).2 with empty := e } ∧
      (CircularBuffer_readmsg cs { obj with empty := e }).2 =
        { (CircularBuffer_readmsg cs obj).2 with empty := e } ∧
      (CircularBuffer_peekmsg cs { obj with empty := e }).2 =
        { (CircularBuffer_peekmsg cs obj).2 with empty := e }) := by
  refine ⟨?_, ?_, ?_⟩
  · intro h0 hp
    have hg : get_rbuffer obj = .NULL .bufferIsEmpty := by simp [get_rbuffer, h0, hp]
    simp [CircularBuffer_peek, CircularBuffer_read, CircularBuffer_readmsg,
      CircularBuffer_peekmsg, readmsg, peek, hg]
  · intro h0 hp
    have hg : get_rbuffer obj = .None := by
      simp [get_rbuffer, h0, hp, EMPTY_EMPTY, EMPTY_EXC, EMPTY_WAIT]
    simp [CircularBuffer_peek, CircularBuffer_read, CircularBuffer_readmsg,
      CircularBuffer_peekmsg, readmsg, peek, hg]
  · intro hpos e
    have hne : obj.cnt ≠ 0 := by omega
    have hg := get_rbuffer_self obj hne
    have hg' : get_rbuffer { obj with empty := e } = .Self :=
      get_rbuffer_self { obj with empty := e } hne
    simp only [CircularBuffer_peek, read_eq, CircularBuffer_readmsg,
      CircularBuffer_peekmsg, readmsg, peek, hg, hg', get_msgsize_policy]
    simp

/-! ## The extent of the allocation and the offsets of the copies -/

/-- The extent `CircularBuffer_init` requests is `2 * size` reduced modulo `2 ^ 32`: it is
`2 * size` for `size < 2 ^ 31` only. -/
theorem init_alloc (mem : Option (Nat → Byte)) (size empty full : Nat) (obj : CircularBuffer)
    (h : CircularBuffer_init mem size empty full = .ok obj) :
    obj.alloc = (2 * obj.size) % 4294967296 ∧
    (obj.size < 2147483648 → obj.alloc = 2 * obj.size) := by
  unfold CircularBuffer_init at h
  simp only [] at h
  split_ifs at h with hlt
  cases mem with
  | none => simp at h
  | some buf =>
    simp only [] at h
    have hobj := (Except.ok.inj h).symm
    subst hobj
    simp only [Nat.shiftLeft_eq]
    constructor
    · omega
    · intro hs; omega

/-- For the argument `size = 2 ^ 31 + 8` the constructor succeeds with an allocation of 16
bytes. -/
theorem alloc_wraps : initSize 2147483656 = 2147483656 ∧ initAlloc 2147483656 = 16 := by
  decide

/-- No method assigns the storage pointer: the extent of the block stays. -/
theorem call_alloc (cs : Bool) (obj : CircularBuffer) (op : Op) :
    (call cs obj op).2.alloc = obj.alloc := by
  have hg : (get_msgsize cs obj).2.alloc = obj.alloc := by
    rw [get_msgsize_frame]
  cases op with
  | clear => rfl
  | peek n => rfl
  | drop n => rfl
  | read n junk =>
    simp only [call, read_eq, peek]
    cases get_rbuffer obj <;> rfl
  | read_into dst n =>
    simp only [call, CircularBuffer_read_into]
    split_ifs <;> rfl
  | write data =>
    simp only [call, CircularBuffer_write]
    split_ifs <;> rfl
  | peekmsg =>
    simp only [call, CircularBuffer_peekmsg, readmsg]
    cases get_rbuffer obj <;> simp only [] <;> first | rfl | exact hg
  | dropmsg =>
    simp only [call, CircularBuffer_dropmsg]
    split_ifs <;> simp only [] <;> exact hg
  | readmsg =>
    simp only [call, CircularBuffer_readmsg, readmsg]
    cases get_rbuffer obj <;> simp only [] <;> first | rfl | exact hg
  | readmsg_into dst =>
    simp only [call, CircularBuffer_readmsg_into]
    split_ifs <;> simp only [] <;> exact hg
  | writemsg data =>
    simp only [call, CircularBuffer_writemsg]
    split_ifs <;> rfl

theorem run_alloc (cs : Bool) (ops : List Op) : ∀ obj : CircularBuffer,
    (run cs obj ops).alloc = obj.alloc := by
  induction ops with
  | nil => intro obj; rfl
  | cons op ops ih =>
    intro obj
    simp only [run]
    rw [ih, call_alloc]

/-- In every state a constructed buffer reaches by `write`, `read`, `peek`, `drop`,
`writemsg`, `readmsg`, `peekmsg` and `dropmsg`, no `read` having been handed `None` by
`peek`, every storage offset the next `write`, `writemsg`, `peek`, `read`, `readmsg` or
`peekmsg` copies to or from is below `2 * size`. -/
theorem offsets_below_twice_size (cs : Bool) (mem : Option (Nat → Byte))
    (size empty full : Nat) (obj : CircularBuffer) (ops : List Op) (op : Op) (i : Nat)
    (hinit : CircularBuffer_init mem size empty full = .ok obj)
    (hops : coreRun cs obj ops = true) (hop : copyOp op = true)
    (ht : touches cs (run cs obj ops) op i = true) :
    i < 2 * (run cs obj ops).size := by
  obtain ⟨_, hsz, hc, hr, hw, _, _⟩ := init_ok mem size empty full obj hinit
  obtain ⟨z, c0, c1, cr, cw⟩ :=
    core_run cs ops obj hsz (by omega) (by omega) (by omega) (by omega) hops
  exact touches_bound cs (run cs obj ops) op i (by omega) c0 (by omega) (by omega)
    (by omega) hop ht

/-- With `size < 2 ^ 31` these offsets are inside the block `malloc` was asked for. -/
theorem offsets_inside_allocation (cs : Bool) (mem : Option (Nat → Byte))
    (size empty full : Nat) (obj : CircularBuffer) (ops : List Op) (op : Op) (i : Nat)
    (hinit : CircularBuffer_init mem size empty full = .ok obj)
    (hsmall : obj.size < 2147483648)
    (hops : coreRun cs obj ops = true) (hop : copyOp op = true)
    (ht : touches cs (run cs obj ops) op i = true) :
    i < (run cs obj ops).alloc := by
  have h := offsets_below_twice_size cs mem size empty full obj ops op i hinit hops hop ht
  rw [stream_run_size] at h
  rw [run_alloc, (init_alloc mem size empty full obj hinit).2 hsmall]
  exact h


set_option maxRecDepth 100000

/-! ## C1 : byte round trip -/

/-- C1. On a buffer with `cnt = 0` and `rpos = wpos` (an object of any size that came out
of `CircularBuffer_init`, hence `size < 2 ^ 32`, at any cursor offset), for every `data`
with `1 ≤ len(data) ≤ size`: `write(data)` returns `len(data)`, the following
`read(len(data))` returns exactly `data`, and `cnt` is 0 again. -/
theorem C1_byte_round_trip (obj : CircularBuffer) (data : List Byte) (junk : Nat)
    (hsize : obj.size < 4294967296) (hcnt : obj.cnt = 0) (hpos : obj.rpos = obj.wpos)
    (h1 : 1 ≤ data.length) (h2 : data.length ≤ obj.size) :
    (CircularBuffer_write obj data).1 = .Long data.length ∧
    (CircularBuffer_read (CircularBuffer_write obj data).2 data.length junk).1 = .Bytes data ∧
    (CircularBuffer_read (CircularBuffer_write obj data).2 data.length junk).2.cnt = 0 := by
  have hw : CircularBuffer_write obj data =
      (.Long data.length,
       { obj with
         buf := writeBytes obj.buf obj.wpos data
         wpos := wrap obj.size (obj.wpos + data.length)
         cnt := (data.length : Int) }) := by
    have : ¬ ((data.length : Int) > (obj.size : Int) - obj.cnt) := by omega
    simp only [CircularBuffer_write]
    rw [if_neg this]
    simp [hcnt]
  rw [hw]
  have hne : ¬ ((data.length : Int) = 0) := by omega
  have hu : toUInt (data.length : Int) = data.length := toUInt_natCast _ (by omega)
  rw [read_of_range _ _ junk (inLong_natCast _ (by omega)) hne]
  simp [hu, hpos, readBytes_writeBytes_self]

/-- C1 at `CircularBuffer(16)` and `b"hello"`. -/
theorem C1_byte_round_trip_witness :
    fresh16.size < 4294967296 ∧ fresh16.cnt = 0 ∧ fresh16.rpos = fresh16.wpos ∧
    1 ≤ hello.length ∧ hello.length ≤ fresh16.size ∧
    ((CircularBuffer_write fresh16 hello).1 = .Long hello.length ∧
     (CircularBuffer_read (CircularBuffer_write fresh16 hello).2 hello.length 0).1 =
       .Bytes hello ∧
     (CircularBuffer_read (CircularBuffer_write fresh16 hello).2 hello.length 0).2.cnt = 0) :=
  ⟨by decide, rfl, rfl, by decide, by decide,
   C1_byte_round_trip fresh16 hello 0 (by decide) rfl rfl (by decide) (by decide)⟩

/-! ## C2 : message round trip -/

/-- C2. On a buffer that came out of `CircularBuffer_init` (`size < 2 ^ 32`,
`msgsize_bytes` chosen from `size`) with `cnt = 0` and `rpos = wpos < size`, for every
payload with `msgsize_bytes + len(payload) ≤ size`, on either `char` signedness:
`writemsg(payload)` returns `len(payload)`, raises `cnt` by `msgsize_bytes + len(payload)`
and `msgcnt` by 1; the following `readmsg()` returns exactly `payload` and brings `cnt`
and `msgcnt` back to their values before the write. -/
theorem C2_message_round_trip (cs : Bool) (obj : CircularBuffer) (payload : List Byte)
    (hsize : obj.size < 4294967296) (hhw : obj.msgsize_bytes = headerWidth obj.size)
    (hcnt : obj.cnt = 0) (hpos : obj.rpos = obj.wpos) (hw : obj.wpos < obj.size)
    (hfit : obj.msgsize_bytes + payload.length ≤ obj.size) :
    (CircularBuffer_writemsg obj payload).1 = .Long payload.length ∧
    (CircularBuffer_writemsg obj payload).2.cnt =
      obj.cnt + ((obj.msgsize_bytes : Int) + payload.length) ∧
    (CircularBuffer_writemsg obj payload).2.msgcnt = obj.msgcnt + 1 ∧
    (CircularBuffer_readmsg cs (CircularBuffer_writemsg obj payload).2).1 = .Bytes payload ∧
    (CircularBuffer_readmsg cs (CircularBuffer_writemsg obj payload).2).2.cnt = obj.cnt ∧
    (CircularBuffer_readmsg cs (CircularBuffer_writemsg obj payload).2).2.msgcnt =
      obj.msgcnt := by
  obtain ⟨hk1, hk4, hk⟩ := headerWidth_bounds obj.size hsize
  rw [← hhw] at hk1 hk4 hk
  have hlen : toUInt (payload.length : Int) = payload.length := toUInt_natCast _ (by omega)
  have hacc : ¬ ((toUInt payload.length : Int) >
      (obj.size : Int) - obj.cnt - obj.msgsize_bytes) := by
    rw [hlen]; omega
  rw [writemsg_eq obj payload hk1 hk4 hacc, hlen]
  simp only [List.take_length]
  generalize ho : ({ obj with
      buf := writeBytes (hdrStore obj.size obj.wpos payload.length obj.buf obj.msgsize_bytes)
        (hdrPos obj.size obj.wpos obj.msgsize_bytes) payload
      wpos := wrap obj.size (hdrPos obj.size obj.wpos obj.msgsize_bytes + payload.length)
      cnt := obj.cnt + (((obj.msgsize_bytes + payload.length) % 4294967296 : Nat) : Int)
      msgcnt := obj.msgcnt + 1 } : CircularBuffer) = o
  have obuf : o.buf = writeBytes
      (hdrStore obj.size obj.wpos payload.length obj.buf obj.msgsize_bytes)
      (hdrPos obj.size obj.wpos obj.msgsize_bytes) payload := by rw [← ho]
  have osize : o.size = obj.size := by rw [← ho]
  have ocnt : o.cnt = obj.cnt + obj.msgsize_bytes + payload.length := by
    rw [← ho]
    simp only []
    omega
  have orpos : o.rpos = obj.wpos := by rw [← ho]; exact hpos
  have omsgcnt : o.msgcnt = obj.msgcnt + 1 := by rw [← ho]
  have ohw : o.msgsize_bytes = obj.msgsize_bytes := by rw [← ho]
  have hval : payload.length ≤ hdrValue cs o obj.msgsize_bytes := by
    refine le_trans (le_of_eq ?_) (leValue_le_hdrValue cs o obj.msgsize_bytes hk4)
    symm
    apply leValue_encoded o payload.length obj.msgsize_bytes hk1 hk4 (by omega)
    intro i hi
    rw [obuf, osize, orpos]
    exact writemsg_header_bytes _ _ _ _ _ _ hw hfit i hi
  have hclamp : clampedSize cs o = payload.length := by
    unfold clampedSize
    rw [ohw, ocnt, hcnt]
    have : (0 : Int) + obj.msgsize_bytes + payload.length - obj.msgsize_bytes =
        (payload.length : Int) := by omega
    rw [this, hlen]
    split_ifs with h
    · rfl
    · omega
  simp only [CircularBuffer_readmsg]
  rw [readmsg_eq cs o true (by omega) (by omega) (by omega), hclamp]
  simp only [if_true]
  refine ⟨trivial, by omega, trivial, ?_, by omega, by omega⟩
  rw [obuf, osize, orpos, ohw, readBytes_writeBytes_self]


/-- C2 at `CircularBuffer(16)` and the payload `b"ab"`, with signed `char`. -/
theorem C2_message_round_trip_witness :
    fresh16.size < 4294967296 ∧ fresh16.msgsize_bytes = headerWidth fresh16.size ∧
    fresh16.cnt = 0 ∧ fresh16.rpos = fresh16.wpos ∧ fresh16.wpos < fresh16.size ∧
    fresh16.msgsize_bytes + [(97 : Byte), 98].length ≤ fresh16.size ∧
    ((CircularBuffer_writemsg fresh16 [97, 98]).1 = .Long [(97 : Byte), 98].length ∧
     (CircularBuffer_writemsg fresh16 [97, 98]).2.cnt =
       fresh16.cnt + ((fresh16.msgsize_bytes : Int) + [(97 : Byte), 98].length) ∧
     (CircularBuffer_writemsg fresh16 [97, 98]).2.msgcnt = fresh16.msgcnt + 1 ∧
     (CircularBuffer_readmsg true (CircularBuffer_writemsg fresh16 [97, 98]).2).1 =
       .Bytes [97, 98] ∧
     (CircularBuffer_readmsg true (CircularBuffer_writemsg fresh16 [97, 98]).2).2.cnt =
       fresh16.cnt ∧
     (CircularBuffer_readmsg true (CircularBuffer_writemsg fresh16 [97, 98]).2).2.msgcnt =
       fresh16.msgcnt) :=
  ⟨by decide, by decide, rfl, rfl, by decide, by decide,
   C2_message_round_trip true fresh16 [97, 98] (by decide) (by decide) rfl rfl (by decide)
     (by decide)⟩

/-! ## C3 : two queued messages -/

/-- C3, evaluated where it fails.  With signed `char`, on `CircularBuffer(256)`:
after `writemsg` of 128 bytes and `writemsg(b"\x09")`, the header byte `0x80` of the
first message is sign-extended by `get_msgsize`, the decoded size is clamped to all 130
bytes that are left, so the first `readmsg()` returns the first payload followed by the
header and payload of the second message, and the second `readmsg()` finds the buffer
empty and returns `None`.  (With unsigned `char` both messages come back, see
`two_messages_unsigned_char`.) -/
theorem C3_two_messages_signed_char :
    2 * fresh256.msgsize_bytes + (List.replicate 128 (7 : Byte)).length +
        [(9 : Byte)].length ≤ fresh256.size ∧
    results true fresh256
        [.writemsg (List.replicate 128 7), .writemsg [9], .readmsg, .readmsg] =
      [.Long 128, .Long 1, .Bytes (List.replicate 128 7 ++ [1, 9]), .None] := by
  decide

/-! ## C4 : wraparound against a reference queue -/

/-- C4, evaluated where it fails.  On `CircularBuffer(16)`: `write` of 15 bytes `1`,
`read(15)`, `write` of 16 bytes `2` (stored at offsets 15..30, `wpos` reset to 0),
`read(1)` (`rpos` reset to 0), `read(15)`.  The last `read` returns the 15 stale bytes `1`
at offsets 0..14; the reference queue returns the 15 bytes `2` still queued. -/
theorem C4_wraparound_fails :
    results true fresh16 (crossingWrites ++ [.read 1 0, .read 15 0]) =
      [.Long 15, .Bytes (List.replicate 15 1), .Long 16, .Bytes [2],
       .Bytes (List.replicate 15 1)] ∧
    refResults 16 [] (crossingWrites ++ [.read 1 0, .read 15 0]) =
      [.Long 15, .Bytes (List.replicate 15 1), .Long 16, .Bytes [2],
       .Bytes (List.replicate 15 2)] := by
  decide

/-! ## C5 : cursor / fill invariant -/

/-- C5, evaluated where it fails.  On `CircularBuffer(16)`, after `write` of 15 bytes,
`read(15)` and `write` of 16 bytes: the last `write` moved `wpos` from 15 to 0, not to
`(15 + 16) mod 16 = 15`, and `(wpos - rpos) mod size = 1` while `cnt mod size = 0`. -/
theorem C5_invariant_fails :
    (run true fresh16 (crossingWrites.take 2)).wpos = 15 ∧
    (run true fresh16 crossingWrites).wpos = 0 ∧
    (run true fresh16 crossingWrites).rpos = 15 ∧
    (run true fresh16 crossingWrites).cnt = 16 ∧
    (((run true fresh16 crossingWrites).wpos : Int) - (run true fresh16 crossingWrites).rpos) %
        (run true fresh16 crossingWrites).size = 1 ∧
    (run true fresh16 crossingWrites).cnt % (run true fresh16 crossingWrites).size = 0 := by
  decide

/-! ## C6 : fill accounting -/

/-- C6, evaluated where it fails.  On `CircularBuffer(16)` after `write(b"hello")`, the call
`drop(2 ** 64)`: `PyLong_AsLong` fails and returns -1, `drop` does not test for that,
takes all 5 bytes out (`cnt = 0`) and hands its count back with the `OverflowError` still
set, so the call raises and reports no count.  The bytes accepted are 5, the bytes
returned or reported are 0, and `cnt` is 0, not `5 - 0`. -/
theorem C6_drop_unchecked_count :
    results true fresh16 dropTooLarge = [.Long 5, .ErrorSet .intTooLarge (.Long 5)] ∧
    (run true fresh16 dropTooLarge).cnt = 0 ∧
    totalAccepted true fresh16 dropTooLarge = 5 ∧
    totalReleased true fresh16 dropTooLarge = 0 ∧
    (run true fresh16 dropTooLarge).cnt ≠
      totalAccepted true fresh16 dropTooLarge - totalReleased true fresh16 dropTooLarge := by
  decide

/-! ## C7 : peek and peekmsg leave the buffer alone -/

/-- C7, evaluated where it fails.  On `CircularBuffer(16)`, `read_into(bytearray(10), 10)`
on the empty buffer leaves `cnt = -10`; `peekmsg()` then saves `cnt` in an `unsigned int`
and writes it back as `4294967286`.  The change is visible: `write(b"hello")` is accepted
(returns 5) without the `peekmsg()` in between and rejected (returns 0) with it. -/
theorem C7_peekmsg_moves_cnt :
    (run true fresh16 [.read_into (List.replicate 10 0) 10]).cnt = -10 ∧
    (run true fresh16 [.read_into (List.replicate 10 0) 10, .peekmsg]).cnt = 4294967286 ∧
    results true fresh16 [.read_into (List.replicate 10 0) 10, .write hello] =
      [.True, .Long 5] ∧
    results true fresh16 [.read_into (List.replicate 10 0) 10, .peekmsg, .write hello] =
      [.True, .Bytes [], .Long 0] := by
  decide

/-! ## C8 : overflow outcome of write -/

/-- C8. In every state with `cnt ≤ size` and for every `data`: `write(data)` returns
`len(data)` iff `len(data) ≤ size - cnt`; when it does not fit, under `FULL_ZERO` it
returns -1 iff `len(data) > size` and 0 iff `size - cnt < len(data) ≤ size`, under
`FULL_EXC` it raises "Not enough free space" whatever the size, under `FULL_WAIT` it
raises "Data size too big" iff `len(data) > size`. -/
theorem C8_write_overflow_outcome (obj : CircularBuffer) (data : List Byte)
    (h1 : obj.cnt ≤ obj.size) :
    ((CircularBuffer_write obj data).1 = .Long data.length ↔
      (data.length : Int) ≤ obj.size - obj.cnt) ∧
    (¬ ((data.length : Int) ≤ obj.size - obj.cnt) →
      (obj.full = FULL_ZERO →
        ((CircularBuffer_write obj data).1 = .Long (-1) ↔ data.length > obj.size) ∧
        ((CircularBuffer_write obj data).1 = .Long 0 ↔
          (obj.size : Int) - obj.cnt < data.length ∧ data.length ≤ obj.size)) ∧
      (obj.full = FULL_EXC → (CircularBuffer_write obj data).1 = .NULL .notEnoughFreeSpace) ∧
      (obj.full = FULL_WAIT →
        ((CircularBuffer_write obj data).1 = .NULL .dataSizeTooBig ↔
          data.length > obj.size))) := by
  unfold CircularBuffer_write
  simp only [FULL_ZERO, FULL_WAIT, FULL_EXC]
  split_ifs <;> simp <;> omega

/-- C8 at `CircularBuffer(16)` and 20 bytes: the write returns -1. -/
theorem C8_write_overflow_outcome_witness :
    fresh16.cnt ≤ fresh16.size ∧
    ¬ (((List.replicate 20 (0 : Byte)).length : Int) ≤ fresh16.size - fresh16.cnt) ∧
    fresh16.full = FULL_ZERO ∧
    ((CircularBuffer_write fresh16 (List.replicate 20 0)).1 = .Long (-1) ↔
      (List.replicate 20 (0 : Byte)).length > fresh16.size) :=
  ⟨by decide, by decide, rfl,
   (((C8_write_overflow_outcome fresh16 (List.replicate 20 0) (by decide)).2
      (by decide)).1 rfl).1⟩

/-! ## C9 : too-large threshold of writemsg -/

/-- C9, evaluated where it fails.  On `CircularBuffer(16)` (`msgsize_bytes = 1`) a payload
of 16 bytes can never fit (`1 + 16 > 16`), yet `writemsg` compares the payload length
alone with `size`: under `FULL_ZERO` it returns 0, not -1, and under `FULL_WAIT` it raises
"TODO: Implement blocking writer", not "Data size too big". -/
theorem C9_threshold_ignores_header :
    (fresh16.msgsize_bytes + (List.replicate 16 (0 : Byte)).length > fresh16.size) ∧
    (CircularBuffer_writemsg fresh16 (List.replicate 16 0)).1 = .Long 0 ∧
    (CircularBuffer_writemsg fresh16Wait (List.replicate 16 0)).1 =
      .NULL .todoBlockingWriter := by
  decide

/-! ## C10 : no partial mutation on error -/

/-- C11, evaluated where it fails.  On `CircularBuffer(16)`, `writemsg(b"")` is accepted
(`cnt = 1`, `msgcnt = 1`); the `dropmsg()` that follows consumes the header (`rpos = 1`,
`cnt = 0`) but, the decoded size being 0, returns `False` and leaves `msgcnt = 1`.
`readmsg()` in its place returns `b""` and brings `msgcnt` to 0. -/
theorem C11_dropmsg_empty_payload :
    (CircularBuffer_writemsg fresh16 []).1 = .Long 0 ∧
    (run true fresh16 [.writemsg []]).cnt = 1 ∧
    (run true fresh16 [.writemsg []]).msgcnt = 1 ∧
    (CircularBuffer_dropmsg true (run true fresh16 [.writemsg []])).1 = .False ∧
    (run true fresh16 [.writemsg [], .dropmsg]).rpos = 1 ∧
    (run true fresh16 [.writemsg [], .dropmsg]).cnt = 0 ∧
    (run true fresh16 [.writemsg [], .dropmsg]).msgcnt = 1 ∧
    results true fresh16 [.writemsg [], .readmsg] = [.Long 0, .Bytes []] ∧
    (run true fresh16 [.writemsg [], .readmsg]).msgcnt = 0 := by
  decide

/-! ## C12 : count of read_into -/

/-- C12, evaluated where it fails.  On `CircularBuffer(16)` holding the 5 bytes of
`b"hello"`, `read_into(dst, 8)` with a destination of 10 bytes copies 8 bytes, the 5
buffered ones and 3 more from the storage behind them, and leaves `cnt = -3`; the count is
not compared with `cnt`. -/
theorem C12_read_into_not_clamped :
    fiveBytes.cnt = 5 ∧
    (CircularBuffer_read_into fiveBytes (List.replicate 10 255) 8).1 = .True ∧
    (CircularBuffer_read_into fiveBytes (List.replicate 10 255) 8).2.2 =
      hello ++ [0, 0, 0] ++ [255, 255] ∧
    (CircularBuffer_read_into fiveBytes (List.replicate 10 255) 8).2.1.cnt = -3 ∧
    (CircularBuffer_read_into fiveBytes (List.replicate 10 255) 8).2.1.rpos = 8 := by
  decide

/-! ## C13 : readmsg postcondition -/

/-- C13, evaluated where it fails.  On `CircularBuffer(256)` holding a message of 128
bytes and a message of 1 byte (`cnt = 131`), the header at `rpos` has the little-endian
value `L = 128`, and `min(L, cnt - 1) = 128`.  With signed `char` the byte `0x80` is
sign-extended, the decoded size is clamped to 130, and `readmsg()` returns 130 bytes and
leaves `cnt = 0`; with unsigned `char` it returns 128 bytes and leaves `cnt = 2`. -/
theorem C13_readmsg_sign_extended :
    twoQueued.msgsize_bytes = 1 ∧ twoQueued.cnt = 131 ∧ twoQueued.msgcnt = 2 ∧
    leValue twoQueued 1 = 128 ∧
    (CircularBuffer_readmsg true twoQueued).1 = .Bytes (List.replicate 128 7 ++ [1, 9]) ∧
    (CircularBuffer_readmsg true twoQueued).2.cnt = 0 ∧
    (CircularBuffer_readmsg false twoQueued).1 = .Bytes (List.replicate 128 7) ∧
    (CircularBuffer_readmsg false twoQueued).2.cnt = 2 := by
  decide

/-! ## C14 : readmsg_into against readmsg -/

/-- C14, evaluated where it fails.  On the empty `CircularBuffer(16, empty=EMPTY_EXC)`,
`readmsg()` raises "Buffer is empty" while `readmsg_into(dst)` returns `True` and leaves
`msgcnt = -1`; under `EMPTY_EMPTY`, `readmsg()` returns `None` and leaves `msgcnt = 0`
while `readmsg_into(dst)` again leaves `msgcnt = -1`.  `readmsg_into` does not call
`get_rbuffer`. -/
theorem C14_readmsg_into_on_empty :
    fresh16Exc.cnt = 0 ∧
    (CircularBuffer_readmsg true fresh16Exc).1 = .NULL .bufferIsEmpty ∧
    (CircularBuffer_readmsg_into true fresh16Exc [0, 0, 0, 0]).1 = .True ∧
    (CircularBuffer_readmsg_into true fresh16Exc [0, 0, 0, 0]).2.1.msgcnt = -1 ∧
    (CircularBuffer_readmsg true fresh16).1 = .None ∧
    (CircularBuffer_readmsg true fresh16).2.msgcnt = 0 ∧
    (CircularBuffer_readmsg_into true fresh16 [0, 0, 0, 0]).1 = .True ∧
    (CircularBuffer_readmsg_into true fresh16 [0, 0, 0, 0]).2.1.msgcnt = -1 := by
  decide

/-! ## C15 : underflow outcome -/

/-- C15, evaluated where it fails.  On the empty `CircularBuffer(16)` under `EMPTY_EMPTY`
(whose comment reads "Return empty string"), `peek(5)`, `read(5)`, `readmsg()` and
`peekmsg()` each return the object `None`, not the empty `bytes` object. -/
theorem C15_empty_yields_none :
    fresh16.cnt = 0 ∧ fresh16.empty = EMPTY_EMPTY ∧
    (CircularBuffer_peek fresh16 5).1 = .None ∧
    (CircularBuffer_read fresh16 5 0).1 = .None ∧
    (CircularBuffer_readmsg true fresh16).1 = .None ∧
    (CircularBuffer_peekmsg true fresh16).1 = .None ∧
    (CircularBuffer_peek fresh16 5).1 ≠ .Bytes [] ∧
    (CircularBuffer_read fresh16 5 0).1 ≠ .Bytes [] ∧
    (CircularBuffer_readmsg true fresh16).1 ≠ .Bytes [] ∧
    (CircularBuffer_peekmsg true fresh16).1 ≠ .Bytes [] := by
  decide

/-! ## C16 : header-width selection -/

/-- C16. For every object `CircularBuffer_init` accepts, of capacity `size ≥ 16`:
`msgsize_bytes` is 1 if `size ≤ 256`, 2 if `256 < size ≤ 65536`, 3 if
`65536 < size ≤ 256 * 65536`, and 4 otherwise; in particular the capacities 256, 257, 65536
and 65537 give 1, 2, 2 and 3. -/
theorem C16_header_width_selection (mem : Option (Nat → Byte)) (size empty full : Nat)
    (obj : CircularBuffer) (hinit : CircularBuffer_init mem size empty full = .ok obj) :
    16 ≤ obj.size ∧
    (obj.size ≤ 256 → obj.msgsize_bytes = 1) ∧
    (256 < obj.size → obj.size ≤ 65536 → obj.msgsize_bytes = 2) ∧
    (65536 < obj.size → obj.size ≤ 256 * 65536 → obj.msgsize_bytes = 3) ∧
    (256 * 65536 < obj.size → obj.msgsize_bytes = 4) ∧
    initHeaderWidth 256 = 1 ∧ initHeaderWidth 257 = 2 ∧
    initHeaderWidth 65536 = 2 ∧ initHeaderWidth 65537 = 3 := by
  obtain ⟨h16, _, _, _, _, _, hhw⟩ := init_ok mem size empty full obj hinit
  rw [hhw]
  unfold headerWidth
  refine ⟨h16, ?_, ?_, ?_, ?_, by decide, by decide, by decide, by decide⟩
  · intro h; rw [if_pos h]
  · intro h1 h2; rw [if_neg (by omega), if_pos h2]
  · intro h1 h2; rw [if_neg (by omega), if_neg (by omega), if_pos h2]
  · intro h1; rw [if_neg (by omega), if_neg (by omega), if_neg (by omega)]

/-- C16 at `CircularBuffer(257)`: a header of 2 bytes. -/
theorem C16_header_width_selection_witness :
    CircularBuffer_init (some zeroMem) 257 0 0 = .ok fresh257 ∧
    256 < fresh257.size ∧ fresh257.size ≤ 65536 ∧ fresh257.msgsize_bytes = 2 :=
  ⟨rfl, by decide, by decide,
   (C16_header_width_selection (some zeroMem) 257 0 0 fresh257 rfl).2.2.1 (by decide) (by decide)⟩

/-! ## C17 : read on an empty buffer -/

/-- C17, evaluated where it fails.  On the empty `CircularBuffer(16)` under `EMPTY_EMPTY`,
`read(5)` returns `None` and then adds its local `cnt`, never assigned on this path, to
`rpos` and subtracts it from `cnt`: with the value 7 in that local the call leaves
`rpos = 7` and `cnt = -7`; only the value 0 leaves them as they were. -/
theorem C17_read_empty_moves :
    fresh16.cnt = 0 ∧ fresh16.empty = EMPTY_EMPTY ∧
    (CircularBuffer_read fresh16 5 7).1 = .None ∧
    (CircularBuffer_read fresh16 5 7).2.rpos = 7 ∧
    (CircularBuffer_read fresh16 5 7).2.cnt = -7 ∧
    (CircularBuffer_read fresh16 5 0).2.rpos = 0 ∧
    (CircularBuffer_read fresh16 5 0).2.cnt = 0 := by
  decide

/-! ## C18 : storage offsets of the copies -/

/-- C18, evaluated where it fails.  `CircularBuffer(16)` after `write` of 15 bytes and
`read(15)` is a state reached by `write` and `read` with both cursors at offset 15.  The
next `write` of 16 bytes copies to the offsets 15..30, and after it the next `read(16)`
copies from the offsets 15..30: the offsets 16 and 30 are not below the capacity 16.
In the same state `writemsg(b"hello")` stores its header byte at offset 15, resets the
cursor and copies the payload to the offsets 0..4, not to 16..20. -/
theorem C18_copy_crosses_capacity :
    coreRun true fresh16 crossingWrites = true ∧
    (run true fresh16 (crossingWrites.take 2)).size = 16 ∧
    (run true fresh16 (crossingWrites.take 2)).wpos = 15 ∧
    touches true (run true fresh16 (crossingWrites.take 2))
      (.write (List.replicate 16 2)) 16 = true ∧
    touches true (run true fresh16 (crossingWrites.take 2))
      (.write (List.replicate 16 2)) 30 = true ∧
    (run true fresh16 crossingWrites).size = 16 ∧
    (run true fresh16 crossingWrites).rpos = 15 ∧
    touches true (run true fresh16 crossingWrites) (.read 16 0) 16 = true ∧
    touches true (run true fresh16 crossingWrites) (.read 16 0) 30 = true ∧
    touches true (run true fresh16 (crossingWrites.take 2)) (.writemsg hello) 15 = true ∧
    touches true (run true fresh16 (crossingWrites.take 2)) (.writemsg hello) 4 = true ∧
    touches true (run true fresh16 (crossingWrites.take 2)) (.writemsg hello) 16 = false ∧
    touches true (run true fresh16 (crossingWrites.take 2)) (.writemsg hello) 20 = false := by
  decide

/-! ## C19 : cursors stay in range -/

/-- C19. In every state a constructed buffer (`size ≥ 16`) reaches by any sequence of
`write`, `read`, `peek`, `drop`, `read_into`, `writemsg`, `readmsg`, `peekmsg`, `dropmsg`,
`readmsg_into` and `clear` calls, `rpos < size` and `wpos < size` (offsets are natural
numbers, so `0 ≤ rpos` and `0 ≤ wpos`). -/
theorem C19_cursors_in_range (cs : Bool) (mem : Option (Nat → Byte)) (size empty full : Nat)
    (obj : CircularBuffer) (ops : List Op)
    (hinit : CircularBuffer_init mem size empty full = .ok obj) :
    16 ≤ (run cs obj ops).size ∧
    (run cs obj ops).rpos < (run cs obj ops).size ∧
    (run cs obj ops).wpos < (run cs obj ops).size := by
  obtain ⟨h16, _, _, hr, hw, _, _⟩ := init_ok mem size empty full obj hinit
  have hz := stream_run_size cs ops obj
  have := run_cursors cs ops obj (by omega) (by omega) (by omega)
  rw [hz]
  exact ⟨h16, this⟩

/-- C19 at `CircularBuffer(16)` after `write` of 15 bytes, `read(15)` and `write` of 16
bytes. -/
theorem C19_cursors_in_range_witness :
    CircularBuffer_init (some zeroMem) 16 0 0 = .ok fresh16 ∧
    16 ≤ (run true fresh16 crossingWrites).size ∧
    (run true fresh16 crossingWrites).rpos < (run true fresh16 crossingWrites).size ∧
    (run true fresh16 crossingWrites).wpos < (run true fresh16 crossingWrites).size :=
  ⟨rfl, C19_cursors_in_range true (some zeroMem) 16 0 0 fresh16 crossingWrites rfl⟩

/-! ## C20 : the header is wide enough -/

/-- C20. On every buffer with `size < 2 ^ 32`, `msgsize_bytes` chosen from `size` as at
construction, `0 ≤ cnt` and `wpos < size`, for every payload `writemsg` accepts
(`len(payload) ≤ size - cnt - msgsize_bytes`): `len(payload) < 256 ^ msgsize_bytes`,
`writemsg` returns `len(payload)`, the header byte it stores at the `i`-th header offset
is byte `i` of `len(payload)`, and the little-endian value of the stored header is
`len(payload)`. -/
theorem C20_header_wide_enough (obj : CircularBuffer) (payload : List Byte)
    (hsize : obj.size < 4294967296) (hhw : obj.msgsize_bytes = headerWidth obj.size)
    (h0 : 0 ≤ obj.cnt) (hw : obj.wpos < obj.size)
    (hacc : (payload.length : Int) ≤ obj.size - obj.cnt - obj.msgsize_bytes) :
    payload.length < 256 ^ obj.msgsize_bytes ∧
    (CircularBuffer_writemsg obj payload).1 = .Long payload.length ∧
    (∀ i, i < obj.msgsize_bytes →
      (CircularBuffer_writemsg obj payload).2.buf (hdrPos obj.size obj.wpos i) =
        toByte ((payload.length >>> (8 * i)) &&& 0xff)) ∧
    leValue { (CircularBuffer_writemsg obj payload).2 with rpos := obj.wpos }
      obj.msgsize_bytes = payload.length := by
  obtain ⟨hk1, hk4, hk⟩ := headerWidth_bounds obj.size hsize
  rw [← hhw] at hk1 hk4 hk
  have hlt : payload.length < 256 ^ obj.msgsize_bytes := by omega
  obtain ⟨r, b, z, -, -, -, -, -⟩ :=
    writemsg_accept obj payload hk1 hk4 hsize h0 (by omega)
  have hb : ∀ i, i < obj.msgsize_bytes →
      (CircularBuffer_writemsg obj payload).2.buf (hdrPos obj.size obj.wpos i) =
        toByte ((payload.length >>> (8 * i)) &&& 0xff) := by
    intro i hi
    rw [b]
    exact writemsg_header_bytes _ _ _ _ _ _ hw (by omega) i hi
  refine ⟨hlt, r, hb, ?_⟩
  apply leValue_encoded _ payload.length obj.msgsize_bytes hk1 hk4 hlt
  intro i hi
  simp only []
  rw [z]
  exact hb i hi

/-- C20 at `CircularBuffer(16)` and the payload `b"hello"`. -/
theorem C20_header_wide_enough_witness :
    fresh16.size < 4294967296 ∧ fresh16.msgsize_bytes = headerWidth fresh16.size ∧
    0 ≤ fresh16.cnt ∧ fresh16.wpos < fresh16.size ∧
    (hello.length : Int) ≤ fresh16.size - fresh16.cnt - fresh16.msgsize_bytes ∧
    hello.length < 256 ^ fresh16.msgsize_bytes ∧
    leValue { (CircularBuffer_writemsg fresh16 hello).2 with rpos := fresh16.wpos }
      fresh16.msgsize_bytes = hello.length :=
  ⟨by decide, by decide, by decide, by decide, by decide,
   (C20_header_wide_enough fresh16 hello (by decide) (by decide) (by decide) (by decide)
      (by decide)).1,
   (C20_header_wide_enough fresh16 hello (by decide) (by decide) (by decide) (by decide)
      (by decide)).2.2.2⟩

end CircBuf
